import Mathlib

/-!
# Deep dream driver (`src/dream.cpp`)

A shallow embedding of `AddSuperNaive`, `AddNaive` and `run` of `src/dream.cpp`.

* Graphs (`NetDef`) are values; the C++ in-place mutation of a `NetDef &` becomes a function
  returning the new graph.
* `run` is a function from the flags and an environment (class table, model files, net
  execution) to the list of framework calls it makes, in order, and the way it ends.
* The loop index of `run` is a 32-bit `int`: `i++` wraps around (`intSucc`), and the loop is
  followed for a given number of steps (`fuel`), after which the run is reported as still
  running.  The int flags and the multiplier are carried as `Int`; a value outside the range
  of `int` cannot be given to the program.  Float constants are carried as exact rationals and
  never computed with.
* The flag strings come from `argv` and the class table holds C string literals, so neither
  holds a NUL and `strcmp(a, b) == 0` is string equality.
* The framework calls (`CreateNet`, `Run`, `ReadProtoFromFile`) are modelled on the executions
  in which they return to the caller.
-/

namespace Dream

/-! ## Data model -/

/-- Float constants of operator arguments and flags, kept exact. -/
abbrev FloatVal := ℚ

/-- Device placement tag of an operator node. -/
inductive Device
  | default
  | accelerator
deriving DecidableEq, Repr

/-- Value of an operator argument. -/
inductive ArgVal
  | int (v : Int)
  | float (v : FloatVal)
  | ints (v : List Int)
deriving DecidableEq

/-- An operator node: kind, ordered inputs, ordered outputs, arguments, device tag. -/
structure OperatorDef where
  type : String
  input : List String
  output : List String
  arg : List (String × ArgVal) := []
  device : Device := Device.default
deriving DecidableEq

/-- A graph: ordered operator nodes, ordered external inputs, ordered external outputs. -/
structure NetDef where
  op : List OperatorDef := []
  external_input : List String := []
  external_output : List String := []
deriving DecidableEq

/-- The command line flags of lines 18-27. -/
structure Flags where
  model : String
  layer : String
  channel : Int
  image_file : String
  label : String
  train_runs : Int
  size_to_fit : Int
  learning_rate : FloatVal
  force_cpu : Bool
deriving DecidableEq

/-! ## Label lookup (lines 108-113) -/

/-- State of `label_index` after the iterations `i = 0, ..., n - 1` of the loop of lines
109-113: it starts at `-1` and every matching `i` overwrites it. -/
def labelScan (imagenet_classes : Nat → String) (label : String) (n : Nat) : Int :=
  (List.range n).foldl
    (fun label_index i => if label = imagenet_classes i then (i : Int) else label_index) (-1)

/-- The value of `label_index` after the loop `for (int i = 0; i < 1000; i++)`. -/
def labelLookup (imagenet_classes : Nat → String) (label : String) : Int :=
  labelScan imagenet_classes label 1000

/-! ## Graph builders -/

/-- Protobuf `add_op`: the node is appended to the node list of the graph. -/
def add_op (model : NetDef) (o : OperatorDef) : NetDef :=
  { model with op := model.op ++ [o] }

/-- Protobuf `add_external_input`: the name is appended to the external inputs. -/
def add_external_input (model : NetDef) (name : String) : NetDef :=
  { model with external_input := model.external_input ++ [name] }

/-- Modelled from the spec: `util/build.h` is missing. `add_weighted_sum_op` appends a
weighted-sum node with the given ordered inputs and the sole output `sum`. -/
def add_weighted_sum_op (model : NetDef) (inputs : List String) (sum : String) : NetDef :=
  add_op model { type := "WeightedSum", input := inputs, output := [sum] }

/-- Modelled from the spec: `util/build.h` is missing. `add_constant_fill_float_op` appends a
constant-fill node that produces the blob `param` of the given shape, filled with `value`. -/
def add_constant_fill_float_op (model : NetDef) (shape : List Int) (value : FloatVal)
    (param : String) : NetDef :=
  add_op model { type := "ConstantFill", input := [], output := [param],
                 arg := [("shape", ArgVal.ints shape), ("value", ArgVal.float value)] }

/-- Modelled from the spec: `util/build.h` is missing. `add_constant_fill_int32_op` appends a
constant-fill node that produces the integer blob `param` (the target class of the class
objective). -/
def add_constant_fill_int32_op (model : NetDef) (shape : List Int) (value : Int)
    (param : String) : NetDef :=
  add_op model { type := "ConstantFill", input := [], output := [param],
                 arg := [("shape", ArgVal.ints shape), ("value", ArgVal.int value)] }

/-- Modelled from the spec: `util/build.h` is missing. `add_uniform_fill_float_op` appends a
uniform-fill node that produces the blob `param` of the given shape with values in
`[min, max]`. -/
def add_uniform_fill_float_op (model : NetDef) (shape : List Int) (min max : FloatVal)
    (param : String) : NetDef :=
  add_op model { type := "UniformFill", input := [], output := [param],
                 arg := [("shape", ArgVal.ints shape), ("min", ArgVal.float min),
                         ("max", ArgVal.float max)] }

/-- Modelled from the spec: `util/build.h` is missing. `add_channel_mean_ops` appends a
channel-selection/reduction node that reduces `layer` over all but the batch and channel axes;
the objective tensor (the blob `score` read at line 195) is the new external output. -/
def add_channel_mean_ops (model : NetDef) (layer : String) (dim1 dim2 channel : Int) : NetDef :=
  { add_op model { type := "ChannelMean", input := [layer], output := ["score"],
                   arg := [("dim1", ArgVal.int dim1), ("dim2", ArgVal.int dim2),
                           ("channel", ArgVal.int channel)] }
    with external_output := ["score"] }

/-- Modelled from the spec: `util/build.h` is missing. `add_xent_ops` appends the class
objective, a cross-entropy loss of `output` against the blob `label`; the objective tensor is
the new external output. -/
def add_xent_ops (model : NetDef) (output : String) : NetDef :=
  { add_op model { type := "LabelCrossEntropy", input := [output, "label"],
                   output := ["score"] }
    with external_output := ["score"] }

/-- The gradient node of a forward node: it consumes the inputs and outputs of the forward node
and the gradients of its outputs, and produces the gradients of its inputs. -/
def gradient_op (o : OperatorDef) : OperatorDef :=
  { type := o.type ++ "Gradient",
    input := o.input ++ o.output ++ o.output.map (fun b => b ++ "_grad"),
    output := o.input.map (fun b => b ++ "_grad"),
    arg := o.arg,
    device := o.device }

/-- Modelled from the spec: `util/build.h` is missing. `add_gradient_ops` appends one gradient
node per existing forward node, in reverse order of the forward nodes. -/
def add_gradient_ops (model : NetDef) : NetDef :=
  { model with op := model.op ++ model.op.reverse.map gradient_op }

/-- Modelled from the spec: `util/build.h` is missing. `add_iter_lr_ops` adds to the init graph
an iteration counter (int64, starting at 0), and to the predict graph the node that increments
it and the node that computes the learning-rate blob `lr` from the base rate and the counter. -/
def add_iter_lr_ops (init_model predict_model : NetDef) (base_rate : FloatVal) :
    NetDef × NetDef :=
  (add_op init_model { type := "ConstantFill", input := [], output := ["iter"],
                       arg := [("shape", ArgVal.ints [1]), ("value", ArgVal.int 0)] },
   add_op
     (add_op (add_external_input predict_model "iter")
       { type := "Iter", input := ["iter"], output := ["iter"] })
     { type := "LearningRate", input := ["iter"], output := ["lr"],
       arg := [("base_lr", ArgVal.float base_rate)] })

/-! ## Augmenters (lines 46-75) -/

/-- The class-objective augmenter `AddSuperNaive` of lines 46-60. `external_output(0)` and
`external_input(0)` on an empty list are out of range: the result is `none`. -/
def AddSuperNaive (F : Flags) (init_model predict_model : NetDef) (label_index : Int) :
    Option (NetDef × NetDef) :=
  match predict_model.external_output[0]? with
  | none => none
  | some output =>
    let predict_model := add_xent_ops predict_model output
    let predict_model := add_gradient_ops predict_model
    let m := add_iter_lr_ops init_model predict_model F.learning_rate
    let init_model := add_constant_fill_int32_op m.1 [1] label_index "label"
    let predict_model := add_external_input m.2 "label"
    let init_model := add_constant_fill_float_op init_model [1] 1 "one"
    let predict_model := add_external_input predict_model "one"
    match predict_model.external_input[0]? with
    | none => none
    | some input =>
      some (init_model,
        add_weighted_sum_op predict_model [input, "one", input ++ "_grad", "lr"] input)

/-- The channel-objective augmenter `AddNaive` of lines 62-75. `external_output(0)` and
`external_input(0)` on an empty list are out of range: the result is `none`. -/
def AddNaive (F : Flags) (init_model predict_model : NetDef) (channel : Int) :
    Option (NetDef × NetDef) :=
  match predict_model.external_output[0]? with
  | none => none
  | some output =>
    let predict_model := add_channel_mean_ops predict_model output 1 4 channel
    let predict_model := add_gradient_ops predict_model
    let m := add_iter_lr_ops init_model predict_model F.learning_rate
    match m.2.external_input[0]? with
    | none => none
    | some input0 =>
      let init_model :=
        add_uniform_fill_float_op m.1 [1, 3, F.size_to_fit, F.size_to_fit] (-1) 1 input0
      let init_model := add_constant_fill_float_op init_model [1] 1 "one"
      let predict_model := add_external_input m.2 "one"
      match predict_model.external_input[0]? with
      | none => none
      | some input =>
        some (init_model,
          add_weighted_sum_op predict_model [input, "one", input ++ "_grad", "lr"] input)

/-! ## Layer check, split and device placement -/

/-- The ways `run` stops with a fatal diagnostic. -/
inductive Fault
  | labelNotFound (label : String)
  | modelNotFound (model : String)
  | protoReadFailed (filename : String)
  | layerNotFound (layer : String) (available : List String)
  | outOfRange
deriving DecidableEq

/-- Whether some node of the graph produces the blob `layer`. -/
def layerAvailable (model : NetDef) (layer : String) : Bool :=
  model.op.any (fun o => o.output.contains layer)

/-- The layer names a graph offers: the outputs of its nodes, in order. -/
def availableLayers (model : NetDef) : List String :=
  model.op.flatMap (fun o => o.output)

/-- Modelled from the spec: `util/net.h` is missing. `CheckLayerAvailable` yields whether the
layer is present in the predict graph, a `bool`. -/
def CheckLayerAvailable (model : NetDef) (layer : String) : Bool :=
  layerAvailable model layer

/-- Scan of the nodes in order: the nodes up to and including the first one that produces
`layer`, and the remaining ones; `none` when no node produces it. -/
def splitOps (layer : String) : List OperatorDef → Option (List OperatorDef × List OperatorDef)
  | [] => none
  | o :: os =>
    if o.output.contains layer then some ([o], os)
    else match splitOps layer os with
      | none => none
      | some p => some (o :: p.1, p.2)

/-- Whether a node of the init graph fills a blob that one of the given nodes consumes. -/
def consumedBy (ops : List OperatorDef) (o : OperatorDef) : Bool :=
  o.output.any (fun b => ops.any (fun p => p.input.contains b))

/-- Modelled from the spec: `util/net.h` is missing. `SplitModel` yields the four graphs
(first init, first predict, second init, second predict): the first predict graph holds the
nodes up to and including the one producing `layer` and has the external output `layer`; the
second predict graph holds the remaining nodes, has the external input `layer` and the external
outputs of the full graph; each init graph is the full init graph filtered to the blobs its
predict nodes consume. A layer no node produces is the layer-not-found error. The spec gives
`force_cpu` no part in the algorithm. -/
def SplitModel (full_init_model full_predict_model : NetDef) (layer : String)
    (_force_cpu : Bool) : Except Fault (NetDef × NetDef × NetDef × NetDef) :=
  match splitOps layer full_predict_model.op with
  | none => Except.error (Fault.layerNotFound layer (availableLayers full_predict_model))
  | some p =>
    Except.ok
      ({ full_init_model with op := full_init_model.op.filter (consumedBy p.1) },
       { op := p.1, external_input := full_predict_model.external_input,
         external_output := [layer] },
       { full_init_model with op := full_init_model.op.filter (consumedBy p.2) },
       { op := p.2, external_input := [layer],
         external_output := full_predict_model.external_output })

/-- Modelled from the spec: `util/cuda.h` is missing. `set_device_cuda_model` is the device
placement pass: it rewrites the device tag of every node to the accelerator. -/
def set_device_cuda_model (model : NetDef) : NetDef :=
  { model with op := model.op.map (fun o => { o with device := Device.accelerator }) }

/-! ## Environment and trace -/

/-- What `run` takes from outside `dream.cpp`: the accelerator multiplier of `util/cuda.h`
(a positive scaling factor), whether an accelerator is available (a fact of the machine that
no line of `run` reads), the class table of
`res/imagenet_classes.h` (read at the indices below 1000), the model files, and the framework:
a fresh workspace, net creation and net execution on a workspace of type `W`. `netRun` returns
the value of `Run()` and the workspace it leaves. -/
structure Env (W : Type) where
  cuda_multipier : Int
  cuda_multipier_pos : 0 < cuda_multipier
  cuda_available : Bool
  imagenet_classes : Nat → String
  ensureModel : String → Bool
  ReadProtoFromFile : String → Option NetDef
  newWorkspace : W
  CreateNet : NetDef → W → W
  netRun : NetDef → W → Bool × W

/-- The default of the flag `train_runs` (line 24). -/
def default_train_runs {W : Type} (env : Env W) : Int :=
  200 * env.cuda_multipier

/-- The two nets of a run. -/
inductive Net
  | init
  | predict
deriving DecidableEq

/-- The calls `run` makes outside `dream.cpp`, as recorded in its trace. `checkLayer l b` is the
call of `CheckLayerAvailable` that returned `b`; `netRun n i ok` is an execution of net `n` at
loop index `i` (0 for the init net) that returned `ok`; `report i name w` is the reporting step
of iteration `i`, reading the input blob `name` and the scalar blobs from the workspace `w`. -/
inductive Event (W : Type)
  | setupCUDA
  | ensureModel (model : String)
  | readProto (filename : String)
  | checkLayer (layer : String) (value : Bool)
  | splitModel (layer : String) (force_cpu : Bool)
  | addNaive (channel : Int)
  | setDevice (n : Net)
  | createNet (n : Net) (g : NetDef)
  | netRun (n : Net) (i : Int) (ok : Bool)
  | report (i : Int) (input_name : String) (w : W)
deriving DecidableEq

/-- How `run` ends: one of the two usage returns (lines 87, 92), a fatal diagnostic, or the
normal return after the loop with the final workspace; `running` is a run whose loop has not
ended within the steps it was followed for. -/
inductive Outcome (W : Type)
  | usageModel
  | usageLabel
  | fatal (f : Fault)
  | finished (w : W)
  | running
deriving DecidableEq

/-- A stage of `run`: the calls it made and either the way `run` stopped in it or its value. -/
abbrev Proc (W : Type) (α : Type) := List (Event W) × Except (Outcome W) α

/-- Sequencing of stages: a stage that stopped ends the run, otherwise the next stage runs
and its calls follow. -/
def Proc.andThen {W α β : Type} (p : Proc W α) (f : α → Proc W β) : Proc W β :=
  match p.2 with
  | Except.error o => (p.1, Except.error o)
  | Except.ok a => (p.1 ++ (f a).1, (f a).2)

/-! ## `run` (lines 77-211) -/

/-- Lines 82-119: the two usage returns, `setupCUDA`, the label lookup and its fatal error.
The value is `label_index`. -/
def checkFlags {W : Type} (env : Env W) (F : Flags) : Proc W Int :=
  if F.model.length = 0 then ([], Except.error Outcome.usageModel)
  else if F.label.length = 0 then ([], Except.error Outcome.usageLabel)
  else
    let t := if F.force_cpu then [] else [Event.setupCUDA]
    let label_index := labelLookup env.imagenet_classes F.label
    if label_index < 0 then (t, Except.error (Outcome.fatal (Fault.labelNotFound F.label)))
    else (t, Except.ok label_index)

/-- Lines 125-136: the model is looked up and the two graph files are read, each under
`CAFFE_ENFORCE`. -/
def loadModel {W : Type} (env : Env W) (F : Flags) : Proc W (NetDef × NetDef) :=
  if env.ensureModel F.model then
    let init_filename := "res/" ++ F.model ++ "_init_net.pb"
    let predict_filename := "res/" ++ F.model ++ "_predict_net.pb"
    match env.ReadProtoFromFile init_filename with
    | none =>
      ([Event.ensureModel F.model, Event.readProto init_filename],
        Except.error (Outcome.fatal (Fault.protoReadFailed init_filename)))
    | some full_init_model =>
      match env.ReadProtoFromFile predict_filename with
      | none =>
        ([Event.ensureModel F.model, Event.readProto init_filename,
          Event.readProto predict_filename],
          Except.error (Outcome.fatal (Fault.protoReadFailed predict_filename)))
      | some full_predict_model =>
        ([Event.ensureModel F.model, Event.readProto init_filename,
          Event.readProto predict_filename],
          Except.ok (full_init_model, full_predict_model))
  else ([Event.ensureModel F.model], Except.error (Outcome.fatal (Fault.modelNotFound F.model)))

/-- Lines 140-144 from the four graphs of the split on: `AddNaive` on the first pair. The second
pair is not used again, nor is `label_index` (its only use, line 143, is commented out). -/
def augmentFirst {W : Type} (F : Flags)
    (first_init_model first_predict_model _second_init_model _second_predict_model : NetDef)
    (_label_index : Int) : Proc W (NetDef × NetDef) :=
  match AddNaive F first_init_model first_predict_model F.channel with
  | none => ([Event.addNaive F.channel], Except.error (Outcome.fatal Fault.outOfRange))
  | some g => ([Event.addNaive F.channel], Except.ok g)

/-- Lines 138-144: layer check, split, augmentation. The value of `CheckLayerAvailable` is
dropped (line 138 is a statement) and `SplitModel` is called whatever it was. -/
def splitAndAugment {W : Type} (F : Flags) (full_init_model full_predict_model : NetDef)
    (label_index : Int) : Proc W (NetDef × NetDef) :=
  let checked := Event.checkLayer F.layer (CheckLayerAvailable full_predict_model F.layer)
  match SplitModel full_init_model full_predict_model F.layer F.force_cpu with
  | Except.error f =>
    ([checked, Event.splitModel F.layer F.force_cpu], Except.error (Outcome.fatal f))
  | Except.ok s =>
    let a : Proc W (NetDef × NetDef) :=
      augmentFirst F s.1 s.2.1 s.2.2.1 s.2.2.2 label_index
    ([checked, Event.splitModel F.layer F.force_cpu] ++ a.1, a.2)

/-- Lines 151-155: device placement of the first pair, under the test of `force_cpu` alone. -/
def placeDevice {W : Type} (F : Flags) (g : NetDef × NetDef) : Proc W (NetDef × NetDef) :=
  if F.force_cpu then ([], Except.ok g)
  else
    ([Event.setDevice Net.init, Event.setDevice Net.predict],
      Except.ok (set_device_cuda_model g.1, set_device_cuda_model g.2))

/-- Lines 82-136: the loaded full graphs, with `label_index`. -/
def loadStage {W : Type} (env : Env W) (F : Flags) : Proc W (Int × NetDef × NetDef) :=
  Proc.andThen (checkFlags env F) (fun label_index =>
    Proc.andThen (loadModel env F) (fun m => ([], Except.ok (label_index, m.1, m.2))))

/-- Lines 82-144: the augmented first pair, before device placement. -/
def augmentStage {W : Type} (env : Env W) (F : Flags) : Proc W (NetDef × NetDef) :=
  Proc.andThen (loadStage env F) (fun m => splitAndAugment F m.2.1 m.2.2 m.1)

/-- Lines 82-155: the two graphs the nets are created from. -/
def prepare {W : Type} (env : Env W) (F : Flags) : Proc W (NetDef × NetDef) :=
  Proc.andThen (augmentStage env F) (placeDevice F)

/-- One iteration of the loop (lines 175-202): the predict net runs, the value of `Run()` is
dropped, and when `i % (10 * cuda_multipier) == 0` the blobs are read and shown. -/
def dreamStep {W : Type} (env : Env W) (first_predict_model : NetDef) (input_name : String)
    (i : Int) (w : W) : List (Event W) × W :=
  let r := env.netRun first_predict_model w
  if Int.tmod i (10 * env.cuda_multipier) = 0 then
    ([Event.netRun Net.predict i r.1, Event.report i input_name r.2], r.2)
  else ([Event.netRun Net.predict i r.1], r.2)

/-- The value of a 32-bit `int` after `i++`: the successor modulo 2^32 in two's complement, so
`INT_MAX` is followed by `INT_MIN`. -/
def intSucc (i : Int) : Int :=
  (i + 1 + 2147483648) % 4294967296 - 2147483648

/-- The loop `for (int i = 1; i <= train_runs; i++)` from the index `i` on, followed for at most
`fuel` iterations: the workspace at the exit of the loop, or `none` when the guard still holds
after `fuel` iterations. -/
def dreamLoop {W : Type} (env : Env W) (first_predict_model : NetDef) (input_name : String)
    (train_runs : Int) : Nat → Int → W → List (Event W) × Option W
  | 0, i, w => if i ≤ train_runs then ([], none) else ([], some w)
  | fuel + 1, i, w =>
    if i ≤ train_runs then
      let s := dreamStep env first_predict_model input_name i w
      let r := dreamLoop env first_predict_model input_name train_runs fuel (intSucc i) s.2
      (s.1 ++ r.1, r.2)
    else ([], some w)

/-- Lines 159-203: both nets are created on a fresh workspace, the init net runs, the name of
the primary input is taken, and the loop runs from `i = 1`. -/
def dream {W : Type} (env : Env W) (F : Flags) (first_init_model first_predict_model : NetDef)
    (fuel : Nat) : List (Event W) × Outcome W :=
  let workspace := env.CreateNet first_predict_model
    (env.CreateNet first_init_model env.newWorkspace)
  let r := env.netRun first_init_model workspace
  match first_predict_model.external_input[0]? with
  | none =>
    ([Event.createNet Net.init first_init_model, Event.createNet Net.predict first_predict_model,
      Event.netRun Net.init 0 r.1], Outcome.fatal Fault.outOfRange)
  | some input_name =>
    let l := dreamLoop env first_predict_model input_name F.train_runs fuel 1 r.2
    ([Event.createNet Net.init first_init_model, Event.createNet Net.predict first_predict_model,
      Event.netRun Net.init 0 r.1] ++ l.1,
     match l.2 with
     | some w => Outcome.finished w
     | none => Outcome.running)

/-- The workspace the init net leaves (line 164), on which the loop starts. -/
def initWorkspace {W : Type} (env : Env W) (first_init_model first_predict_model : NetDef) : W :=
  (env.netRun first_init_model
    (env.CreateNet first_predict_model (env.CreateNet first_init_model env.newWorkspace))).2

/-- The end of `run` after the stages of lines 82-155: a stage that stopped ends the run,
otherwise the nets are created and run on the two graphs. -/
def finish {W : Type} (env : Env W) (F : Flags) (fuel : Nat) (p : Proc W (NetDef × NetDef)) :
    List (Event W) × Outcome W :=
  match p.2 with
  | Except.error o => (p.1, o)
  | Except.ok g => (p.1 ++ (dream env F g.1 g.2 fuel).1, (dream env F g.1 g.2 fuel).2)

/-- The function `run` of lines 77-211, its loop followed for at most `fuel` iterations: its
trace and the way it ends. -/
def run {W : Type} (env : Env W) (F : Flags) (fuel : Nat) : List (Event W) × Outcome W :=
  finish env F fuel (prepare env F)

/-- The first `n` iterations of the loop body from the index `i` on, the guard left aside. -/
def iterations {W : Type} (env : Env W) (first_predict_model : NetDef) (input_name : String) :
    Nat → Int → W → List (Event W) × W
  | 0, _, w => ([], w)
  | n + 1, i, w =>
    let s := dreamStep env first_predict_model input_name i w
    let r := iterations env first_predict_model input_name n (intSucc i) s.2
    (s.1 ++ r.1, r.2)

/-- The environment that differs from `env` only in the value each `Run()` returns. -/
def withRunValue {W : Type} (env : Env W) (value : NetDef → W → Bool) : Env W :=
  { env with netRun := fun g w => (value g w, (env.netRun g w).2) }

/-- An event with the value returned by `Run()` left out. -/
def Event.dropValue {W : Type} : Event W → Event W
  | Event.netRun n i _ => Event.netRun n i true
  | e => e

/-! ## Observations on a trace -/

/-- The loop indices of the predict net executions of a trace, in order. -/
def predictRuns {W : Type} (t : List (Event W)) : List Int :=
  t.filterMap (fun e => match e with
    | Event.netRun Net.predict i _ => some i
    | _ => none)

/-- The number of init net executions of a trace. -/
def initRuns {W : Type} (t : List (Event W)) : Nat :=
  (t.filter (fun e => match e with
    | Event.netRun Net.init _ _ => true
    | _ => false)).length

/-- The loop indices of the reporting steps of a trace, in order. -/
def reports {W : Type} (t : List (Event W)) : List Int :=
  t.filterMap (fun e => match e with
    | Event.report i _ _ => some i
    | _ => none)

/-- The graphs handed to `CreateNet` in a trace, in order. -/
def created {W : Type} (t : List (Event W)) : List (Net × NetDef) :=
  t.filterMap (fun e => match e with
    | Event.createNet n g => some (n, g)
    | _ => none)

/-- Whether an event is work on a graph: a model lookup or read, the layer check, the split,
the augmentation, device placement, a net creation, a net execution or a report. -/
def Event.touchesGraph {W : Type} : Event W → Bool
  | Event.setupCUDA => false
  | _ => true

/-- Whether an event is the split or a step after it: the split, the augmentation, device
placement, a net creation, a net execution or a report. -/
def Event.fromSplitOn {W : Type} : Event W → Bool
  | Event.splitModel _ _ => true
  | Event.addNaive _ => true
  | Event.setDevice _ => true
  | Event.createNet _ _ => true
  | Event.netRun _ _ _ => true
  | Event.report _ _ _ => true
  | _ => false

/-- Whether an event is work on a net: a net creation, a net execution or a report. -/
def Event.netWork {W : Type} : Event W → Bool
  | Event.createNet _ _ => true
  | Event.netRun _ _ _ => true
  | Event.report _ _ _ => true
  | _ => false

/-- The graphs `set_device_cuda_model` is called on in a trace, in order. -/
def placements {W : Type} (t : List (Event W)) : List Net :=
  t.filterMap (fun e => match e with
    | Event.setDevice n => some n
    | _ => none)

/-- The loop indices `1, ..., n` in order. -/
def indices (n : Nat) : List Int :=
  (List.range n).map (fun (k : Nat) => 1 + (k : Int))

/-! ## A small model and environment -/

/-- A class table with the entry `cat` at index 7 and `tench` elsewhere. -/
def toyClasses (i : Nat) : String :=
  if i = 7 then "cat" else "tench"

/-- The init graph of the toy model: the weights of its two nodes. -/
def toyInit : NetDef :=
  { op := [{ type := "ConstantFill", input := [], output := ["w"] },
           { type := "ConstantFill", input := [], output := ["v"] }] }

/-- The predict graph of the toy model: `data -> mid -> out`. -/
def toyPredict : NetDef :=
  { op := [{ type := "FC", input := ["data", "w"], output := ["mid"] },
           { type := "FC", input := ["mid", "v"], output := ["out"] }],
    external_input := ["data", "w", "v"],
    external_output := ["out"] }

/-- The files of the toy model. -/
def toyFiles (filename : String) : Option NetDef :=
  if filename = "res/toy_init_net.pb" then some toyInit
  else if filename = "res/toy_predict_net.pb" then some toyPredict
  else none

/-- An environment whose workspace is the iteration counter: the init net sets it to 0 and a
net with an `Iter` node adds one to it. `ok` is what every `Run()` returns and `cuda` whether an
accelerator is available. -/
def toyEnv (ok : Bool) (cuda : Bool) : Env Int :=
  { cuda_multipier := 1,
    cuda_multipier_pos := by decide,
    cuda_available := cuda,
    imagenet_classes := toyClasses,
    ensureModel := fun m => m = "toy",
    ReadProtoFromFile := toyFiles,
    newWorkspace := 0,
    CreateNet := fun _ w => w,
    netRun := fun g w => (ok, if g.op.any (fun o => o.type = "Iter") then w + 1 else 0) }

/-- Flags for the toy model, split at `mid`. -/
def toyFlags (label : String) (train_runs : Int) (force_cpu : Bool) : Flags :=
  { model := "toy", layer := "mid", channel := 0, image_file := "res/image_file.jpg",
    label := label, train_runs := train_runs, size_to_fit := 8, learning_rate := 1,
    force_cpu := force_cpu }

/-- The two graphs the nets of the toy run on the default processor are created from. -/
def toyGraphs : NetDef × NetDef :=
  match (prepare (toyEnv true false) (toyFlags "cat" 0 true)).2 with
  | Except.ok g => g
  | Except.error _ => ({}, {})

/-- The four graphs of the split of the toy model at `mid`. -/
def toySplit : NetDef × NetDef × NetDef × NetDef :=
  match SplitModel toyInit toyPredict "mid" true with
  | Except.ok s => s
  | Except.error _ => ({}, {}, {}, {})

/-! ## Lemmas on the label scan -/

theorem labelScan_zero (cls : Nat → String) (label : String) :
    labelScan cls label 0 = -1 := rfl

theorem labelScan_succ (cls : Nat → String) (label : String) (n : Nat) :
    labelScan cls label (n + 1)
      = if label = cls n then (n : Int) else labelScan cls label n := by
  simp [labelScan, List.range_succ, List.foldl_append]

theorem labelScan_range (cls : Nat → String) (label : String) (n : Nat) :
    labelScan cls label n = -1 ∨ (0 ≤ labelScan cls label n ∧ labelScan cls label n < n) := by
  induction n with
  | zero => left; rfl
  | succ n ih =>
    rw [labelScan_succ]
    by_cases h : label = cls n
    · right
      simp only [h, if_true]
      omega
    · simp only [h, if_false]
      rcases ih with ih | ih
      · left; exact ih
      · right; push_cast; omega

theorem labelScan_eq_neg_one_iff (cls : Nat → String) (label : String) (n : Nat) :
    labelScan cls label n = -1 ↔ ∀ i, i < n → cls i ≠ label := by
  induction n with
  | zero => simp [labelScan_zero]
  | succ n ih =>
    rw [labelScan_succ]
    by_cases h : label = cls n
    · simp only [h, if_true]
      constructor
      · intro h1; omega
      · intro h1; exact absurd rfl (h1 n (Nat.lt_succ_self n))
    · simp only [h, if_false, ih]
      constructor
      · intro h1 i hi
        rcases Nat.lt_succ_iff_lt_or_eq.mp hi with hi | hi
        · exact h1 i hi
        · subst hi; exact fun e => h e.symm
      · intro h1 i hi
        exact h1 i (Nat.lt_succ_of_lt hi)

theorem labelScan_found (cls : Nat → String) (label : String) (n : Nat)
    (h : labelScan cls label n ≠ -1) :
    cls (labelScan cls label n).toNat = label ∧
      ∀ j, j < n → cls j = label → (j : Int) ≤ labelScan cls label n := by
  induction n with
  | zero => exact absurd (labelScan_zero cls label) h
  | succ n ih =>
    rw [labelScan_succ] at h ⊢
    by_cases hm : label = cls n
    · simp only [hm, if_true]
      refine ⟨by simp, ?_⟩
      intro j hj _
      have : j ≤ n := Nat.lt_succ_iff.mp hj
      exact_mod_cast this
    · simp only [hm, if_false] at h ⊢
      obtain ⟨h1, h2⟩ := ih h
      refine ⟨h1, ?_⟩
      intro j hj hjl
      rcases Nat.lt_succ_iff_lt_or_eq.mp hj with hj | hj
      · exact h2 j hj hjl
      · subst hj; exact absurd hjl.symm hm

/-! ## Lemmas on the stages of `run` -/

theorem length_eq_zero_iff (s : String) : s.length = 0 ↔ s = "" := by
  constructor
  · intro h
    cases s with
    | mk d =>
      have hd : d = [] := List.length_eq_zero.mp h
      subst hd; rfl
  · intro h; subst h; rfl

theorem andThen_error {W α β : Type} (t : List (Event W)) (o : Outcome W) (f : α → Proc W β) :
    Proc.andThen ((t, Except.error o) : Proc W α) f = (t, Except.error o) := rfl

theorem andThen_ok {W α β : Type} (t : List (Event W)) (a : α) (f : α → Proc W β) :
    Proc.andThen ((t, Except.ok a) : Proc W α) f = (t ++ (f a).1, (f a).2) := rfl

theorem checkFlags_empty_model {W : Type} (env : Env W) (F : Flags) (h : F.model = "") :
    checkFlags env F = ([], Except.error Outcome.usageModel) := by
  simp [checkFlags, h]

theorem checkFlags_empty_label {W : Type} (env : Env W) (F : Flags) (h1 : F.model ≠ "")
    (h : F.label = "") : checkFlags env F = ([], Except.error Outcome.usageLabel) := by
  have h1' : ¬ F.model.length = 0 := fun e => h1 ((length_eq_zero_iff _).mp e)
  simp [checkFlags, h, h1']

theorem checkFlags_not_found {W : Type} (env : Env W) (F : Flags) (h1 : F.model ≠ "")
    (h2 : F.label ≠ "") (h : ∀ i, i < 1000 → env.imagenet_classes i ≠ F.label) :
    checkFlags env F = (if F.force_cpu then [] else [Event.setupCUDA],
      Except.error (Outcome.fatal (Fault.labelNotFound F.label))) := by
  have h1' : ¬ F.model.length = 0 := fun e => h1 ((length_eq_zero_iff _).mp e)
  have h2' : ¬ F.label.length = 0 := fun e => h2 ((length_eq_zero_iff _).mp e)
  have hl : labelLookup env.imagenet_classes F.label = -1 :=
    (labelScan_eq_neg_one_iff _ _ 1000).mpr h
  simp [checkFlags, h1', h2', hl]

theorem checkFlags_found {W : Type} (env : Env W) (F : Flags) (h1 : F.model ≠ "")
    (h2 : F.label ≠ "") (h : ∃ i, i < 1000 ∧ env.imagenet_classes i = F.label) :
    checkFlags env F = (if F.force_cpu then [] else [Event.setupCUDA],
      Except.ok (labelLookup env.imagenet_classes F.label)) := by
  have h1' : ¬ F.model.length = 0 := fun e => h1 ((length_eq_zero_iff _).mp e)
  have h2' : ¬ F.label.length = 0 := fun e => h2 ((length_eq_zero_iff _).mp e)
  have hne : labelLookup env.imagenet_classes F.label ≠ -1 := by
    intro e
    obtain ⟨i, hi, hc⟩ := h
    exact (labelScan_eq_neg_one_iff _ _ 1000).mp e i hi hc
  have hr := labelScan_range env.imagenet_classes F.label 1000
  have hpos : ¬ labelLookup env.imagenet_classes F.label < 0 := by
    unfold labelLookup at hne ⊢
    rcases hr with hr | hr
    · exact absurd hr hne
    · omega
  simp [checkFlags, h1', h2', hpos]

theorem run_of_checkFlags_error {W : Type} (env : Env W) (F : Flags) (t : List (Event W))
    (o : Outcome W) (fuel : Nat) (h : checkFlags env F = (t, Except.error o)) :
    run env F fuel = (t, o) := by
  simp [run, finish, prepare, augmentStage, loadStage, h, andThen_error]

theorem run_of_prepare_ok {W : Type} (env : Env W) (F : Flags) (g : NetDef × NetDef)
    (fuel : Nat) (h : (prepare env F).2 = Except.ok g) :
    run env F fuel
      = ((prepare env F).1 ++ (dream env F g.1 g.2 fuel).1, (dream env F g.1 g.2 fuel).2) := by
  simp [run, finish, h]

theorem andThen_of_ok {W α β : Type} (p : Proc W α) (f : α → Proc W β) (a : α)
    (h : p.2 = Except.ok a) : Proc.andThen p f = (p.1 ++ (f a).1, (f a).2) := by
  simp [Proc.andThen, h]

theorem andThen_of_error {W α β : Type} (p : Proc W α) (f : α → Proc W β) (o : Outcome W)
    (h : p.2 = Except.error o) : Proc.andThen p f = (p.1, Except.error o) := by
  simp [Proc.andThen, h]

theorem checkFlags_events {W : Type} (env : Env W) (F : Flags) :
    ∀ e, e ∈ (checkFlags env F).1 → e = Event.setupCUDA := by
  intro e he
  unfold checkFlags at he
  split at he
  · simp at he
  · split at he
    · simp at he
    · cases hf : F.force_cpu <;> simp only [hf] at he <;> split at he <;> simp at he
      all_goals exact he

theorem loadModel_events {W : Type} (env : Env W) (F : Flags) :
    ∀ e, e ∈ (loadModel env F).1 → e.fromSplitOn = false := by
  intro e he
  unfold loadModel at he
  split at he
  · simp only at he
    split at he
    · simp at he
      rcases he with he | he <;> subst he <;> rfl
    · split at he
      · simp at he
        rcases he with he | he | he <;> subst he <;> rfl
      · simp at he
        rcases he with he | he | he <;> subst he <;> rfl
  · simp at he
    subst he; rfl

theorem loadStage_events {W : Type} (env : Env W) (F : Flags) :
    ∀ e, e ∈ (loadStage env F).1 → e.fromSplitOn = false := by
  intro e he
  unfold loadStage at he
  cases hc : (checkFlags env F).2 with
  | error o =>
    rw [andThen_of_error _ _ o hc] at he
    rw [checkFlags_events env F e he]; rfl
  | ok idx =>
    rw [andThen_of_ok _ _ idx hc] at he
    simp only [List.mem_append] at he
    rcases he with he | he
    · rw [checkFlags_events env F e he]; rfl
    · cases hl : (loadModel env F).2 with
      | error o =>
        rw [andThen_of_error _ _ o hl] at he
        exact loadModel_events env F e he
      | ok m =>
        rw [andThen_of_ok _ _ m hl] at he
        simp only [List.append_nil] at he
        exact loadModel_events env F e he

theorem loadModel_label {W : Type} (env : Env W) (F : Flags) (l : String) :
    loadModel env { F with label := l } = loadModel env F := rfl

theorem splitAndAugment_label {W : Type} (F : Flags) (l : String) (a b : NetDef) (i j : Int) :
    (splitAndAugment { F with label := l } a b i : Proc W (NetDef × NetDef))
      = splitAndAugment F a b j := rfl

theorem placeDevice_label {W : Type} (F : Flags) (l : String) :
    (placeDevice { F with label := l } : NetDef × NetDef → Proc W (NetDef × NetDef))
      = placeDevice F := rfl

theorem dream_label {W : Type} (env : Env W) (F : Flags) (l : String) :
    dream env { F with label := l } = dream env F := rfl

/-- The run of a flag set whose label passed the checks of lines 82-119, written without the
label index. -/
theorem run_of_checkFlags_ok {W : Type} (env : Env W) (F : Flags) (t : List (Event W))
    (idx : Int) (fuel : Nat) (h : checkFlags env F = (t, Except.ok idx)) :
    run env F fuel = finish env F fuel
      (Proc.andThen
        (Proc.andThen
          (Proc.andThen ((t, Except.ok 0) : Proc W Int) (fun label_index =>
            Proc.andThen (loadModel env F) (fun m => ([], Except.ok (label_index, m.1, m.2)))))
          (fun m => splitAndAugment F m.2.1 m.2.2 0))
        (placeDevice F)) := by
  unfold run prepare augmentStage loadStage
  rw [h]
  have hs : (fun m : Int × NetDef × NetDef =>
      (splitAndAugment F m.2.1 m.2.2 m.1 : Proc W (NetDef × NetDef)))
      = (fun m => splitAndAugment F m.2.1 m.2.2 0) := rfl
  rw [hs]
  cases hl : (loadModel env F).2 with
  | error o => simp [andThen_ok, andThen_of_error _ _ o hl, andThen_error]
  | ok m => simp [andThen_ok, andThen_of_ok _ _ m hl]

/-! ## Lemmas on the trace before the nets -/

theorem netWork_of_fromSplitOn {W : Type} (e : Event W) (h : e.fromSplitOn = false) :
    e.netWork = false := by
  cases e <;> first | rfl | simp [Event.fromSplitOn] at h

theorem splitAndAugment_events {W : Type} (F : Flags) (a b : NetDef) (i : Int) :
    ∀ e, e ∈ (splitAndAugment F a b i : Proc W (NetDef × NetDef)).1 → e.netWork = false := by
  intro e he
  unfold splitAndAugment at he
  simp only at he
  split at he
  · simp at he
    rcases he with he | he <;> subst he <;> rfl
  · simp only [augmentFirst] at he
    split at he <;> simp at he <;> rcases he with he | he | he <;> subst he <;> rfl

theorem placeDevice_events {W : Type} (F : Flags) (g : NetDef × NetDef) :
    ∀ e, e ∈ (placeDevice F g : Proc W (NetDef × NetDef)).1 → e.netWork = false := by
  intro e he
  unfold placeDevice at he
  split at he
  · simp at he
  · simp at he
    rcases he with he | he <;> subst he <;> rfl

theorem andThen_events {W α β : Type} (p : Proc W α) (f : α → Proc W β) (P : Event W → Prop)
    (hp : ∀ e, e ∈ p.1 → P e) (hf : ∀ a, ∀ e, e ∈ (f a).1 → P e) :
    ∀ e, e ∈ (Proc.andThen p f).1 → P e := by
  intro e he
  cases h : p.2 with
  | error o =>
    rw [andThen_of_error _ _ o h] at he
    exact hp e he
  | ok a =>
    rw [andThen_of_ok _ _ a h] at he
    simp only [List.mem_append] at he
    rcases he with he | he
    · exact hp e he
    · exact hf a e he

theorem prepare_events {W : Type} (env : Env W) (F : Flags) :
    ∀ e, e ∈ (prepare env F).1 → e.netWork = false := by
  unfold prepare augmentStage
  apply andThen_events
  · apply andThen_events
    · intro e he
      exact netWork_of_fromSplitOn e (loadStage_events env F e he)
    · intro m
      exact splitAndAugment_events F _ _ _
  · intro g
    exact placeDevice_events F g

theorem observe_of_no_netWork {W : Type} (t : List (Event W))
    (h : ∀ e, e ∈ t → e.netWork = false) :
    predictRuns t = [] ∧ initRuns t = 0 ∧ reports t = [] ∧ created t = [] := by
  induction t with
  | nil => exact ⟨rfl, rfl, rfl, rfl⟩
  | cons e t ih =>
    have he := h e (List.mem_cons_self e t)
    obtain ⟨i1, i2, i3, i4⟩ := ih (fun x hx => h x (List.mem_cons_of_mem e hx))
    cases e <;> simp [Event.netWork] at he <;>
      simp_all [predictRuns, initRuns, reports, created]

theorem predictRuns_append {W : Type} (s t : List (Event W)) :
    predictRuns (s ++ t) = predictRuns s ++ predictRuns t := by
  simp [predictRuns]

theorem reports_append {W : Type} (s t : List (Event W)) :
    reports (s ++ t) = reports s ++ reports t := by
  simp [reports]

theorem created_append {W : Type} (s t : List (Event W)) :
    created (s ++ t) = created s ++ created t := by
  simp [created]

theorem initRuns_append {W : Type} (s t : List (Event W)) :
    initRuns (s ++ t) = initRuns s + initRuns t := by
  simp [initRuns]

/-! ## Lemmas on the loop -/

theorem intSucc_of_lt (i : Int) (h1 : -2147483648 ≤ i) (h2 : i < 2147483647) :
    intSucc i = i + 1 := by
  unfold intSucc
  omega

theorem intSucc_le (i : Int) : intSucc i ≤ 2147483647 := by
  unfold intSucc
  omega

theorem intSucc_ge (i : Int) : -2147483648 ≤ intSucc i := by
  unfold intSucc
  omega

theorem dreamStep_workspace {W : Type} (env : Env W) (gp : NetDef) (nm : String) (i : Int)
    (w : W) : (dreamStep env gp nm i w).2 = (env.netRun gp w).2 := by
  unfold dreamStep
  split <;> rfl

theorem dreamStep_predictRuns {W : Type} (env : Env W) (gp : NetDef) (nm : String) (i : Int)
    (w : W) : predictRuns (dreamStep env gp nm i w).1 = [i] := by
  unfold dreamStep
  split <;> simp [predictRuns]

theorem dreamStep_reports {W : Type} (env : Env W) (gp : NetDef) (nm : String) (i : Int)
    (w : W) : reports (dreamStep env gp nm i w).1
      = if Int.tmod i (10 * env.cuda_multipier) = 0 then [i] else [] := by
  unfold dreamStep
  split <;> simp [reports]

theorem dreamStep_no_init {W : Type} (env : Env W) (gp : NetDef) (nm : String) (i : Int)
    (w : W) : initRuns (dreamStep env gp nm i w).1 = 0 ∧ created (dreamStep env gp nm i w).1 = [] := by
  unfold dreamStep
  split <;> simp [initRuns, created]

theorem dreamStep_no_placement {W : Type} (env : Env W) (gp : NetDef) (nm : String) (i : Int)
    (w : W) (n : Net) : Event.setDevice n ∉ (dreamStep env gp nm i w).1 := by
  unfold dreamStep
  split <;> simp

theorem map_range_succ (n : Nat) (i : Int) :
    (List.range (n + 1)).map (fun (k : Nat) => i + (k : Int))
      = i :: (List.range n).map (fun (k : Nat) => (i + 1) + (k : Int)) := by
  rw [List.range_succ_eq_map, List.map_cons, List.map_map]
  congr 1
  · simp
  apply List.map_congr_left
  intro k _
  show i + ((k + 1 : Nat) : Int) = i + 1 + (k : Int)
  push_cast
  ring

theorem iterations_predictRuns {W : Type} (env : Env W) (gp : NetDef) (nm : String) (n : Nat) :
    ∀ (i : Int) (w : W), -2147483648 ≤ i → i + n ≤ 2147483647 →
      predictRuns (iterations env gp nm n i w).1
        = (List.range n).map (fun (k : Nat) => i + (k : Int)) := by
  induction n with
  | zero => intro i w _ _; rfl
  | succ n ih =>
    intro i w h1 h2
    push_cast at h2
    rw [map_range_succ]
    simp only [iterations, predictRuns_append, dreamStep_predictRuns]
    rw [intSucc_of_lt i h1 (by omega), ih (i + 1) _ (by omega) (by omega)]
    rfl

theorem iterations_reports {W : Type} (env : Env W) (gp : NetDef) (nm : String) (n : Nat) :
    ∀ (i : Int) (w : W), -2147483648 ≤ i → i + n ≤ 2147483647 →
      reports (iterations env gp nm n i w).1
        = ((List.range n).map (fun (k : Nat) => i + (k : Int))).filter
            (fun j => Int.tmod j (10 * env.cuda_multipier) = 0) := by
  induction n with
  | zero => intro i w _ _; rfl
  | succ n ih =>
    intro i w h1 h2
    push_cast at h2
    rw [map_range_succ]
    simp only [iterations, reports_append, dreamStep_reports, List.filter_cons]
    rw [intSucc_of_lt i h1 (by omega), ih (i + 1) _ (by omega) (by omega)]
    split <;> simp_all

theorem iterations_length {W : Type} (env : Env W) (gp : NetDef) (nm : String) (n : Nat) :
    ∀ (i : Int) (w : W), (predictRuns (iterations env gp nm n i w).1).length = n := by
  induction n with
  | zero => intro i w; rfl
  | succ n ih =>
    intro i w
    simp only [iterations, predictRuns_append, dreamStep_predictRuns, List.length_append, ih]
    simp
    omega

theorem iterations_report_mem {W : Type} (env : Env W) (gp : NetDef) (nm : String) (n : Nat) :
    ∀ (i : Int) (w : W) (k : Nat), k < n →
      Int.tmod (intSucc^[k] i) (10 * env.cuda_multipier) = 0 →
      intSucc^[k] i ∈ reports (iterations env gp nm n i w).1 := by
  induction n with
  | zero => intro i w k hk; omega
  | succ n ih =>
    intro i w k hk hm
    simp only [iterations, reports_append, dreamStep_reports, List.mem_append]
    cases k with
    | zero =>
      left
      simp only [Function.iterate_zero, id_eq] at hm ⊢
      simp [hm]
    | succ k =>
      right
      rw [Function.iterate_succ_apply] at hm ⊢
      exact ih _ _ k (by omega) hm

theorem iterate_intSucc (k : Nat) (i : Int) :
    intSucc^[k + 1] i = (i + (k + 1 : Nat) + 2147483648) % 4294967296 - 2147483648 := by
  induction k with
  | zero =>
    simp only [Function.iterate_succ, Function.iterate_zero, Function.comp, id_eq, intSucc]
    push_cast
    omega
  | succ k ih =>
    rw [Function.iterate_succ_apply', ih]
    unfold intSucc
    push_cast
    omega

theorem iterations_counter {W : Type} (env : Env W) (gp : NetDef) (nm : String) (iter : W → Int)
    (hstep : ∀ w, iter (env.netRun gp w).2 = iter w + 1) (n : Nat) :
    ∀ (i : Int) (w : W), iter (iterations env gp nm n i w).2 = iter w + n := by
  induction n with
  | zero => intro i w; simp [iterations]
  | succ n ih =>
    intro i w
    simp only [iterations, ih, dreamStep_workspace, hstep]
    push_cast
    ring

theorem dreamLoop_no_net {W : Type} (env : Env W) (gp : NetDef) (nm : String) (N : Int)
    (fuel : Nat) :
    ∀ (i : Int) (w : W), initRuns (dreamLoop env gp nm N fuel i w).1 = 0 ∧
      created (dreamLoop env gp nm N fuel i w).1 = [] ∧
      ∀ n, Event.setDevice n ∉ (dreamLoop env gp nm N fuel i w).1 := by
  induction fuel with
  | zero =>
    intro i w
    unfold dreamLoop
    split <;> exact ⟨rfl, rfl, fun n => by simp⟩
  | succ fuel ih =>
    intro i w
    unfold dreamLoop
    split
    · obtain ⟨h1, h2, h3⟩ := ih (intSucc i) (dreamStep env gp nm i w).2
      refine ⟨?_, ?_, ?_⟩
      · simp only [initRuns_append, (dreamStep_no_init env gp nm i w).1, h1]
      · simp only [created_append, (dreamStep_no_init env gp nm i w).2, h2]
        rfl
      · intro n hn
        simp only [List.mem_append] at hn
        rcases hn with hn | hn
        · exact dreamStep_no_placement env gp nm i w n hn
        · exact h3 n hn
    · exact ⟨rfl, rfl, fun n => by simp⟩

theorem dreamLoop_finishes {W : Type} (env : Env W) (gp : NetDef) (nm : String) (N : Int)
    (hN : N < 2147483647) (fuel : Nat) :
    ∀ (i : Int) (w : W), -2147483648 ≤ i → (N + 1 - i).toNat ≤ fuel →
      dreamLoop env gp nm N fuel i w
        = ((iterations env gp nm (N + 1 - i).toNat i w).1,
           some (iterations env gp nm (N + 1 - i).toNat i w).2) := by
  induction fuel with
  | zero =>
    intro i w _ hf
    have hz : (N + 1 - i).toNat = 0 := by omega
    have hg : ¬ i ≤ N := by omega
    rw [hz]
    simp [dreamLoop, hg, iterations]
  | succ fuel ih =>
    intro i w hi hf
    by_cases hg : i ≤ N
    · obtain ⟨n, hn⟩ : ∃ n, (N + 1 - i).toNat = n + 1 := ⟨(N - i).toNat, by omega⟩
      have hn2 : (N + 1 - (i + 1)).toNat = n := by omega
      rw [hn]
      simp only [dreamLoop, hg, if_true, iterations]
      rw [intSucc_of_lt i hi (by omega), ih (i + 1) _ (by omega) (by omega), hn2]
    · have hz : (N + 1 - i).toNat = 0 := by omega
      rw [hz]
      simp [dreamLoop, hg, iterations]

theorem dreamLoop_never_ends {W : Type} (env : Env W) (gp : NetDef) (nm : String) (N : Int)
    (hN : 2147483647 ≤ N) (fuel : Nat) :
    ∀ (i : Int) (w : W), i ≤ 2147483647 →
      dreamLoop env gp nm N fuel i w = ((iterations env gp nm fuel i w).1, none) := by
  induction fuel with
  | zero =>
    intro i w hi
    have hg : i ≤ N := by omega
    simp [dreamLoop, hg, iterations]
  | succ fuel ih =>
    intro i w hi
    have hg : i ≤ N := by omega
    simp only [dreamLoop, hg, if_true, iterations]
    rw [ih (intSucc i) _ (intSucc_le i)]

theorem dropValue_dreamStep {W : Type} (env : Env W) (value : NetDef → W → Bool) (gp : NetDef)
    (nm : String) (i : Int) (w : W) :
    (dreamStep (withRunValue env value) gp nm i w).2 = (dreamStep env gp nm i w).2 ∧
    (dreamStep (withRunValue env value) gp nm i w).1.map Event.dropValue
      = (dreamStep env gp nm i w).1.map Event.dropValue := by
  unfold dreamStep withRunValue
  simp only
  split <;> exact ⟨rfl, rfl⟩

theorem dropValue_dreamLoop {W : Type} (env : Env W) (value : NetDef → W → Bool) (gp : NetDef)
    (nm : String) (N : Int) (fuel : Nat) :
    ∀ (i : Int) (w : W),
      (dreamLoop (withRunValue env value) gp nm N fuel i w).2 = (dreamLoop env gp nm N fuel i w).2 ∧
      (dreamLoop (withRunValue env value) gp nm N fuel i w).1.map Event.dropValue
        = (dreamLoop env gp nm N fuel i w).1.map Event.dropValue := by
  induction fuel with
  | zero =>
    intro i w
    unfold dreamLoop
    split <;> exact ⟨rfl, rfl⟩
  | succ fuel ih =>
    intro i w
    unfold dreamLoop
    split
    · obtain ⟨s1, s2⟩ := dropValue_dreamStep env value gp nm i w
      simp only [List.map_append, s1, s2]
      obtain ⟨h1, h2⟩ := ih (intSucc i) (dreamStep env gp nm i w).2
      exact ⟨h1, by rw [h2]⟩
    · exact ⟨rfl, rfl⟩

/-! ## Lemmas on the stages that succeed -/

theorem andThen_ok_inv {W α β : Type} (p : Proc W α) (f : α → Proc W β) (b : β)
    (h : (Proc.andThen p f).2 = Except.ok b) :
    ∃ a, p.2 = Except.ok a ∧ (f a).2 = Except.ok b := by
  cases hp : p.2 with
  | error o => rw [andThen_of_error _ _ o hp] at h; cases h
  | ok a => rw [andThen_of_ok _ _ a hp] at h; exact ⟨a, rfl, h⟩

theorem AddNaive_input (F : Flags) (a b : NetDef) (c : Int) (g : NetDef × NetDef)
    (h : AddNaive F a b c = some g) : ∃ x, g.2.external_input[0]? = some x := by
  unfold AddNaive at h
  split at h
  · cases h
  · simp only at h
    split at h
    · cases h
    · split at h
      · cases h
      · rename_i x hx
        injection h with h
        subst h
        exact ⟨x, hx⟩

theorem set_device_external_input (g : NetDef) :
    (set_device_cuda_model g).external_input = g.external_input := rfl

theorem placeDevice_eq {W : Type} (F : Flags) (g : NetDef × NetDef) :
    (placeDevice F g : Proc W (NetDef × NetDef)) =
      ((if F.force_cpu then [] else [Event.setDevice Net.init, Event.setDevice Net.predict]),
       Except.ok (if F.force_cpu then g
         else (set_device_cuda_model g.1, set_device_cuda_model g.2))) := by
  unfold placeDevice
  cases F.force_cpu <;> rfl

theorem prepare_of_augment {W : Type} (env : Env W) (F : Flags) (g : NetDef × NetDef)
    (h : (augmentStage env F).2 = Except.ok g) :
    prepare env F = ((augmentStage env F).1 ++
        (if F.force_cpu then [] else [Event.setDevice Net.init, Event.setDevice Net.predict]),
      Except.ok (if F.force_cpu then g
         else (set_device_cuda_model g.1, set_device_cuda_model g.2))) := by
  unfold prepare
  rw [andThen_of_ok _ _ g h, placeDevice_eq]

theorem prepare_ok_inv {W : Type} (env : Env W) (F : Flags) (g : NetDef × NetDef)
    (h : (prepare env F).2 = Except.ok g) :
    ∃ g0, (augmentStage env F).2 = Except.ok g0 ∧
      g = (if F.force_cpu then g0
           else (set_device_cuda_model g0.1, set_device_cuda_model g0.2)) := by
  obtain ⟨g0, h0, h1⟩ := andThen_ok_inv _ _ _ h
  refine ⟨g0, h0, ?_⟩
  rw [placeDevice_eq] at h1
  simp only at h1
  injection h1 with h1
  exact h1.symm

theorem splitAndAugment_ok_inv {W : Type} (F : Flags) (a b : NetDef) (i : Int)
    (g0 : NetDef × NetDef)
    (h : (splitAndAugment F a b i : Proc W (NetDef × NetDef)).2 = Except.ok g0) :
    ∃ s, SplitModel a b F.layer F.force_cpu = Except.ok s ∧
      AddNaive F s.1 s.2.1 F.channel = some g0 := by
  unfold splitAndAugment at h
  simp only at h
  split at h
  · cases h
  · rename_i s hs
    refine ⟨s, hs, ?_⟩
    simp only [augmentFirst] at h
    split at h
    · cases h
    · rename_i g hg
      simp only at h
      injection h with h
      rw [hg, h]

theorem augmentStage_ok_inv {W : Type} (env : Env W) (F : Flags) (g0 : NetDef × NetDef)
    (h : (augmentStage env F).2 = Except.ok g0) :
    ∃ m : Int × NetDef × NetDef, (loadStage env F).2 = Except.ok m ∧
      ∃ s, SplitModel m.2.1 m.2.2 F.layer F.force_cpu = Except.ok s ∧
        AddNaive F s.1 s.2.1 F.channel = some g0 := by
  obtain ⟨m, hm, h1⟩ := andThen_ok_inv _ _ _ h
  exact ⟨m, hm, splitAndAugment_ok_inv F _ _ _ g0 h1⟩

theorem prepare_input {W : Type} (env : Env W) (F : Flags) (g : NetDef × NetDef)
    (h : (prepare env F).2 = Except.ok g) : ∃ x, g.2.external_input[0]? = some x := by
  obtain ⟨g0, h0, hg⟩ := prepare_ok_inv env F g h
  obtain ⟨m, _, s, _, ha⟩ := augmentStage_ok_inv env F g0 h0
  obtain ⟨x, hx⟩ := AddNaive_input F _ _ _ g0 ha
  refine ⟨x, ?_⟩
  rw [hg]
  split
  · exact hx
  · simp only [set_device_external_input]
    exact hx

theorem dream_of_input {W : Type} (env : Env W) (F : Flags) (gi gp : NetDef) (x : String)
    (fuel : Nat) (h : gp.external_input[0]? = some x) :
    dream env F gi gp fuel =
      ([Event.createNet Net.init gi, Event.createNet Net.predict gp,
        Event.netRun Net.init 0
          (env.netRun gi (env.CreateNet gp (env.CreateNet gi env.newWorkspace))).1]
        ++ (dreamLoop env gp x F.train_runs fuel 1 (initWorkspace env gi gp)).1,
       match (dreamLoop env gp x F.train_runs fuel 1 (initWorkspace env gi gp)).2 with
       | some w => Outcome.finished w
       | none => Outcome.running) := by
  unfold dream
  simp only [h]
  rfl

/-- The shape of a run whose stages of lines 82-155 produced two graphs. -/
theorem run_shape {W : Type} (env : Env W) (F : Flags) (gi gp : NetDef) (fuel : Nat)
    (h : (prepare env F).2 = Except.ok (gi, gp)) :
    ∃ x, run env F fuel =
      ((prepare env F).1 ++
        ([Event.createNet Net.init gi, Event.createNet Net.predict gp,
          Event.netRun Net.init 0
            (env.netRun gi (env.CreateNet gp (env.CreateNet gi env.newWorkspace))).1]
          ++ (dreamLoop env gp x F.train_runs fuel 1 (initWorkspace env gi gp)).1),
       match (dreamLoop env gp x F.train_runs fuel 1 (initWorkspace env gi gp)).2 with
       | some w => Outcome.finished w
       | none => Outcome.running) := by
  obtain ⟨x, hx⟩ := prepare_input env F (gi, gp) h
  refine ⟨x, ?_⟩
  rw [run_of_prepare_ok env F (gi, gp) fuel h, dream_of_input env F gi gp x fuel hx]

/-- The shape of a run that reaches the loop with an iteration count below `INT_MAX`, followed
for at least that many iterations. -/
theorem run_finished {W : Type} (env : Env W) (F : Flags) (gi gp : NetDef) (fuel : Nat)
    (h : (prepare env F).2 = Except.ok (gi, gp)) (hN : F.train_runs < 2147483647)
    (hfuel : F.train_runs.toNat ≤ fuel) :
    ∃ x, run env F fuel =
      ((prepare env F).1 ++
        ([Event.createNet Net.init gi, Event.createNet Net.predict gp,
          Event.netRun Net.init 0
            (env.netRun gi (env.CreateNet gp (env.CreateNet gi env.newWorkspace))).1]
          ++ (iterations env gp x F.train_runs.toNat 1 (initWorkspace env gi gp)).1),
       Outcome.finished
        (iterations env gp x F.train_runs.toNat 1 (initWorkspace env gi gp)).2) := by
  obtain ⟨x, hx⟩ := run_shape env F gi gp fuel h
  refine ⟨x, ?_⟩
  have hn : (F.train_runs + 1 - 1).toNat = F.train_runs.toNat := by simp
  rw [hx, dreamLoop_finishes env gp x F.train_runs hN fuel 1 _ (by omega) (by omega), hn]

/-- The shape of a run that reaches the loop with the iteration count `INT_MAX`: the loop has
not ended, however long it is followed. -/
theorem run_running {W : Type} (env : Env W) (F : Flags) (gi gp : NetDef) (fuel : Nat)
    (h : (prepare env F).2 = Except.ok (gi, gp)) (hN : 2147483647 ≤ F.train_runs) :
    ∃ x, run env F fuel =
      ((prepare env F).1 ++
        ([Event.createNet Net.init gi, Event.createNet Net.predict gp,
          Event.netRun Net.init 0
            (env.netRun gi (env.CreateNet gp (env.CreateNet gi env.newWorkspace))).1]
          ++ (iterations env gp x fuel 1 (initWorkspace env gi gp)).1),
       Outcome.running) := by
  obtain ⟨x, hx⟩ := run_shape env F gi gp fuel h
  refine ⟨x, ?_⟩
  rw [hx, dreamLoop_never_ends env gp x F.train_runs hN fuel 1 _ (by omega)]

theorem run_created {W : Type} (env : Env W) (F : Flags) (gi gp : NetDef) (fuel : Nat)
    (h : (prepare env F).2 = Except.ok (gi, gp)) :
    created (run env F fuel).1 = [(Net.init, gi), (Net.predict, gp)] ∧
    initRuns (run env F fuel).1 = 1 := by
  obtain ⟨x, hx⟩ := run_shape env F gi gp fuel h
  obtain ⟨_, p2, _, p4⟩ := observe_of_no_netWork _ (prepare_events env F)
  obtain ⟨l1, l2, _⟩ := dreamLoop_no_net env gp x F.train_runs fuel 1 (initWorkspace env gi gp)
  rw [hx]
  simp only [created_append, initRuns_append, p2, p4, l1, l2]
  exact ⟨by simp [created], by simp [initRuns]⟩

theorem mem_predictRuns {W : Type} (t : List (Event W)) (i : Int) :
    i ∈ predictRuns t ↔ ∃ b, Event.netRun Net.predict i b ∈ t := by
  unfold predictRuns
  rw [List.mem_filterMap]
  constructor
  · rintro ⟨e, he, h⟩
    cases e with
    | netRun n j b =>
      cases n with
      | init => simp at h
      | predict =>
        simp at h
        subst h
        exact ⟨b, he⟩
    | _ => simp at h
  · rintro ⟨b, hb⟩
    exact ⟨_, hb, rfl⟩

theorem mem_reports {W : Type} (t : List (Event W)) (i : Int) :
    i ∈ reports t ↔ ∃ nm w, Event.report i nm w ∈ t := by
  unfold reports
  rw [List.mem_filterMap]
  constructor
  · rintro ⟨e, he, h⟩
    cases e with
    | report j nm w =>
      simp at h
      subst h
      exact ⟨nm, w, he⟩
    | _ => simp at h
  · rintro ⟨nm, w, hb⟩
    exact ⟨_, hb, rfl⟩

theorem mem_indices (n : Nat) (j : Int) :
    j ∈ (List.range n).map (fun (k : Nat) => 1 + (k : Int)) ↔ 1 ≤ j ∧ j ≤ n := by
  rw [List.mem_map]
  constructor
  · rintro ⟨k, hk, rfl⟩
    rw [List.mem_range] at hk
    omega
  · rintro ⟨h1, h2⟩
    refine ⟨(j - 1).toNat, ?_, ?_⟩
    · rw [List.mem_range]; omega
    · omega

/-! ## Lemmas on the count of reports -/

theorem count_multiples (d : Nat) (n : Nat) :
    ((List.range n).filter (fun k => decide ((k + 1) % d = 0))).length = n / d := by
  induction n with
  | zero => simp
  | succ n ih =>
    rw [List.range_succ, List.filter_append, List.length_append, ih, Nat.succ_div]
    by_cases h : d ∣ n + 1
    · have h2 : (n + 1) % d = 0 := Nat.mod_eq_zero_of_dvd h
      simp [h, h2]
    · have h2 : ¬ (n + 1) % d = 0 := fun e => h (Nat.dvd_of_mod_eq_zero e)
      simp [h, h2]

theorem tmod_index (d k : Nat) :
    Int.tmod (1 + (k : Int)) (d : Int) = 0 ↔ (k + 1) % d = 0 := by
  rw [Int.tmod_eq_emod (by omega) (by omega)]
  have h : (1 + (k : Int)) % (d : Int) = (((k + 1) % d : Nat) : Int) := by
    push_cast
    rw [add_comm]
  rw [h]
  exact_mod_cast Iff.rfl

theorem filter_indices_length (K : Int) (hK : 0 < K) (n : Nat) :
    (((indices n).filter (fun j => decide (Int.tmod j K = 0))).length : Int) = (n : Int) / K := by
  obtain ⟨d, rfl⟩ : ∃ d : Nat, K = (d : Int) := ⟨K.toNat, by omega⟩
  unfold indices
  rw [List.filter_map, List.length_map]
  have hc : (List.range n).filter
        ((fun j => decide (Int.tmod j (d : Int) = 0)) ∘ (fun (k : Nat) => 1 + (k : Int)))
      = (List.range n).filter (fun k => decide ((k + 1) % d = 0)) := by
    apply List.filter_congr
    intro k _
    simp only [Function.comp, decide_eq_decide]
    exact tmod_index d k
  rw [hc, count_multiples]
  norm_cast

theorem filter_tmod_eq_dvd (K : Int) (l : List Int) :
    l.filter (fun j => decide (Int.tmod j K = 0)) = l.filter (fun j => decide (K ∣ j)) := by
  apply List.filter_congr
  intro j _
  simp only [decide_eq_decide]
  exact ⟨Int.dvd_of_tmod_eq_zero, Int.tmod_eq_zero_of_dvd⟩

/-- The observations of a run that reaches the loop with an iteration count below `INT_MAX`,
followed for at least that many iterations. -/
theorem run_observed {W : Type} (env : Env W) (F : Flags) (gi gp : NetDef) (fuel : Nat)
    (h : (prepare env F).2 = Except.ok (gi, gp)) (hN : F.train_runs < 2147483647)
    (hfuel : F.train_runs.toNat ≤ fuel) :
    predictRuns (run env F fuel).1 = indices F.train_runs.toNat ∧
    reports (run env F fuel).1 = (indices F.train_runs.toNat).filter
      (fun j => decide (Int.tmod j (10 * env.cuda_multipier) = 0)) := by
  obtain ⟨x, hx⟩ := run_finished env F gi gp fuel h hN hfuel
  obtain ⟨p1, _, p3, _⟩ := observe_of_no_netWork _ (prepare_events env F)
  have hb : (1 : Int) + (F.train_runs.toNat : Nat) ≤ 2147483647 := by omega
  have l2 := iterations_predictRuns env gp x F.train_runs.toNat 1 (initWorkspace env gi gp)
    (by omega) hb
  have l3 := iterations_reports env gp x F.train_runs.toNat 1 (initWorkspace env gi gp)
    (by omega) hb
  rw [hx]
  simp only [predictRuns_append, reports_append, p1, p3, l2, l3, indices]
  exact ⟨by simp [predictRuns], by simp [reports]⟩

/-! ## Lemmas on device placement -/

theorem placements_append {W : Type} (s t : List (Event W)) :
    placements (s ++ t) = placements s ++ placements t := by
  simp [placements]

theorem placements_of_forall {W : Type} (t : List (Event W))
    (h : ∀ e, e ∈ t → ∀ n, e ≠ Event.setDevice n) : placements t = [] := by
  induction t with
  | nil => rfl
  | cons e t ih =>
    have he := h e (List.mem_cons_self e t)
    have ht := ih (fun x hx => h x (List.mem_cons_of_mem e hx))
    cases e with
    | setDevice n => exact absurd rfl (he n)
    | _ => simpa [placements] using ht

theorem augmentStage_no_placement {W : Type} (env : Env W) (F : Flags) :
    placements (augmentStage env F).1 = [] := by
  apply placements_of_forall
  unfold augmentStage
  apply andThen_events
  · intro e he n hn
    have := loadStage_events env F e he
    rw [hn] at this
    cases this
  · intro m e he n hn
    subst hn
    unfold splitAndAugment at he
    simp only at he
    split at he
    · simp at he
    · simp only [augmentFirst] at he
      split at he <;> simp at he

theorem dream_no_placement {W : Type} (env : Env W) (F : Flags) (gi gp : NetDef) (fuel : Nat) :
    placements (dream env F gi gp fuel).1 = [] := by
  apply placements_of_forall
  intro e he n hn
  subst hn
  unfold dream at he
  split at he
  · simp at he
  · simp only [List.mem_append] at he
    rcases he with he | he
    · simp at he
    · exact (dreamLoop_no_net env gp _ F.train_runs fuel 1 _).2.2 n he

theorem getLast?_three {α : Type} (l : List α) (a b c : α) :
    (l ++ [a, b, c]).getLast? = some c := by
  rw [show l ++ [a, b, c] = (l ++ [a, b]) ++ [c] by simp]
  exact List.getLast?_concat _

theorem splitOps_isSome (layer : String) (ops : List OperatorDef) :
    (splitOps layer ops).isSome = ops.any (fun o => o.output.contains layer) := by
  induction ops with
  | nil => rfl
  | cons o os ih =>
    unfold splitOps
    rw [List.any_cons, ← ih]
    by_cases h : layer ∈ o.output
    · simp [h]
    · simp [h]
      cases splitOps layer os <;> rfl

theorem layerAvailable_of_split (a b : NetDef) (layer : String) (fc : Bool)
    (s : NetDef × NetDef × NetDef × NetDef) (h : SplitModel a b layer fc = Except.ok s) :
    layerAvailable b layer = true := by
  unfold layerAvailable
  rw [← splitOps_isSome]
  unfold SplitModel at h
  split at h
  · cases h
  · rename_i p hp
    rw [hp]; rfl

theorem augmentStage_of_split {W : Type} (env : Env W) (F : Flags) (m : Int × NetDef × NetDef)
    (s : NetDef × NetDef × NetDef × NetDef) (g : NetDef × NetDef)
    (hload : (loadStage env F).2 = Except.ok m)
    (hsplit : SplitModel m.2.1 m.2.2 F.layer F.force_cpu = Except.ok s)
    (hadd : AddNaive F s.1 s.2.1 F.channel = some g) :
    (augmentStage env F).2 = Except.ok g := by
  unfold augmentStage
  rw [andThen_of_ok _ _ m hload]
  simp [splitAndAugment, hsplit, augmentFirst, hadd]

theorem created_of_augment {W : Type} (env : Env W) (F : Flags) (gi gp : NetDef) (fuel : Nat)
    (h : (augmentStage env F).2 = Except.ok (gi, gp)) :
    created (run env F fuel).1 =
      (if F.force_cpu then [(Net.init, gi), (Net.predict, gp)]
       else [(Net.init, set_device_cuda_model gi),
             (Net.predict, set_device_cuda_model gp)]) := by
  have hp := prepare_of_augment env F (gi, gp) h
  cases hf : F.force_cpu
  · have hok : (prepare env F).2 = Except.ok
        (set_device_cuda_model gi, set_device_cuda_model gp) := by
      rw [hp]; simp [hf]
    rw [(run_created env F _ _ fuel hok).1]
    rfl
  · have hok : (prepare env F).2 = Except.ok (gi, gp) := by
      rw [hp]; simp [hf]
    rw [(run_created env F _ _ fuel hok).1]
    rfl

theorem placements_of_augment {W : Type} (env : Env W) (F : Flags) (g : NetDef × NetDef)
    (fuel : Nat) (h : (augmentStage env F).2 = Except.ok g) :
    placements (run env F fuel).1 = (if F.force_cpu then [] else [Net.init, Net.predict]) := by
  have hp := prepare_of_augment env F g h
  have hok : (prepare env F).2 = Except.ok (if F.force_cpu then g
         else (set_device_cuda_model g.1, set_device_cuda_model g.2)) := by rw [hp]
  rw [run_of_prepare_ok env F _ fuel hok, placements_append, dream_no_placement, hp,
    placements_append, augmentStage_no_placement]
  cases F.force_cpu <;> rfl

theorem AddNaive_ops (F : Flags) (a b : NetDef) (c : Int) (g : NetDef × NetDef)
    (h : AddNaive F a b c = some g) :
    ∃ objective rest, g.2.op = b.op ++ [objective]
      ++ (b.op ++ [objective]).reverse.map gradient_op ++ rest := by
  unfold AddNaive at h
  split at h
  · cases h
  · simp only at h
    split at h
    · cases h
    · split at h
      · cases h
      · injection h with h
        subst h
        rename_i _ o _ _ _ _ _ i1 _
        refine ⟨{ type := "ChannelMean", input := [o], output := ["score"],
                  arg := [("dim1", ArgVal.int 1), ("dim2", ArgVal.int 4),
                          ("channel", ArgVal.int c)] },
                [{ type := "Iter", input := ["iter"], output := ["iter"] },
                 { type := "LearningRate", input := ["iter"], output := ["lr"],
                   arg := [("base_lr", ArgVal.float F.learning_rate)] },
                 { type := "WeightedSum", input := [i1, "one", i1 ++ "_grad", "lr"],
                   output := [i1] }], ?_⟩
        simp [add_weighted_sum_op, add_external_input, add_iter_lr_ops, add_gradient_ops,
          add_channel_mean_ops, add_op]

theorem dropValue_prepare {W : Type} (env : Env W) (value : NetDef → W → Bool) (F : Flags) :
    prepare (withRunValue env value) F = prepare env F := rfl

theorem dropValue_dream {W : Type} (env : Env W) (value : NetDef → W → Bool) (F : Flags)
    (gi gp : NetDef) (fuel : Nat) :
    (dream (withRunValue env value) F gi gp fuel).2 = (dream env F gi gp fuel).2 ∧
    (dream (withRunValue env value) F gi gp fuel).1.map Event.dropValue
      = (dream env F gi gp fuel).1.map Event.dropValue := by
  unfold dream
  split
  · exact ⟨rfl, rfl⟩
  · rename_i x hx
    obtain ⟨h1, h2⟩ := dropValue_dreamLoop env value gp x F.train_runs fuel 1
      (env.netRun gi (env.CreateNet gp (env.CreateNet gi env.newWorkspace))).2
    refine ⟨?_, ?_⟩
    · show (match (dreamLoop (withRunValue env value) gp x F.train_runs fuel 1
          (env.netRun gi (env.CreateNet gp (env.CreateNet gi env.newWorkspace))).2).2 with
        | some w => Outcome.finished w
        | none => Outcome.running) = _
      rw [h1]
    · simp only [List.map_append]
      show _ ++ List.map Event.dropValue (dreamLoop (withRunValue env value) gp x F.train_runs
          fuel 1 (env.netRun gi (env.CreateNet gp (env.CreateNet gi env.newWorkspace))).2).1 = _
      rw [h2]
      rfl

theorem available_dreamLoop {W : Type} (env : Env W) (available : Bool) (gp : NetDef)
    (nm : String) (N : Int) (fuel : Nat) :
    ∀ (i : Int) (w : W),
      dreamLoop { env with cuda_available := available } gp nm N fuel i w
        = dreamLoop env gp nm N fuel i w := by
  induction fuel with
  | zero => intro i w; rfl
  | succ fuel ih =>
    intro i w
    unfold dreamLoop
    split
    · simp only [ih]
      rfl
    · rfl

theorem available_run {W : Type} (env : Env W) (available : Bool) (F : Flags) (fuel : Nat) :
    run { env with cuda_available := available } F fuel = run env F fuel := by
  have hp : prepare { env with cuda_available := available } F = prepare env F := rfl
  unfold run finish
  rw [hp]
  cases (prepare env F).2 with
  | error o => rfl
  | ok g =>
    have hd : dream { env with cuda_available := available } F g.1 g.2 fuel
        = dream env F g.1 g.2 fuel := by
      unfold dream
      simp only [available_dreamLoop]
    simp only [hd]

/-! ## Theorems -/

/-- C1 (as amended): for every label that equals none of the 1000 entries of the class table,
`run` ends before any graph is touched: its trace holds no model lookup or read, no layer check,
split, augmentation, placement, net creation, net execution or report. When the model name and
the label are both non-empty it ends with the fatal label-not-found error; with an empty model
name or an empty label it returns after the usage message. -/
theorem label_not_found_before_graph {W : Type} (env : Env W) (F : Flags) (fuel : Nat)
    (h : ∀ i, i < 1000 → env.imagenet_classes i ≠ F.label) :
    (∀ e, e ∈ (run env F fuel).1 → e.touchesGraph = false) ∧
    (F.model ≠ "" → F.label ≠ "" →
      (run env F fuel).2 = Outcome.fatal (Fault.labelNotFound F.label)) ∧
    (F.model ≠ "" → F.label = "" → run env F fuel = ([], Outcome.usageLabel)) ∧
    (F.model = "" → run env F fuel = ([], Outcome.usageModel)) := by
  by_cases hm : F.model = ""
  · have hr := run_of_checkFlags_error env F _ _ fuel (checkFlags_empty_model env F hm)
    simp [hr, hm]
  · by_cases hl : F.label = ""
    · have hr := run_of_checkFlags_error env F _ _ fuel (checkFlags_empty_label env F hm hl)
      simp [hr, hm, hl]
    · have hr := run_of_checkFlags_error env F _ _ fuel (checkFlags_not_found env F hm hl h)
      refine ⟨?_, ?_, ?_, ?_⟩
      · intro e he
        rw [hr] at he
        cases hf : F.force_cpu <;> simp [hf] at he
        subst he; rfl
      · intro _ _; rw [hr]
      · intro _ h2; exact absurd h2 hl
      · intro h2; exact absurd h2 hm

/-- C1 (witness): the label `dog` is not in the toy table. -/
theorem label_not_found_before_graph_witness :
    (run (toyEnv true false) (toyFlags "dog" 20 false) 20).2
      = Outcome.fatal (Fault.labelNotFound "dog") :=
  (label_not_found_before_graph (toyEnv true false) (toyFlags "dog" 20 false) 20
    (by intro i _; simp only [toyEnv, toyClasses, toyFlags]; split <;> decide)).2.1
    (by decide) (by decide)

/-- C1 (counterexample): the empty label equals no entry of the toy table, and `run` returns
after the usage message instead of the fatal label-not-found error. -/
theorem label_not_found_empty_label_counterexample :
    (∀ i, i < 1000 → (toyEnv true false).imagenet_classes i ≠ (toyFlags "" 20 false).label) ∧
    (run (toyEnv true false) (toyFlags "" 20 false) 20).2 = Outcome.usageLabel ∧
    (run (toyEnv true false) (toyFlags "" 20 false) 20).2
      ≠ Outcome.fatal (Fault.labelNotFound (toyFlags "" 20 false).label) := by
  refine ⟨?_, by decide, by decide⟩
  intro i _
  simp only [toyEnv, toyClasses, toyFlags]
  split <;> decide

/-- C3 (as amended): the value that `Run()` returns is dropped by `run`. Whatever the
executions of the nets report through it, failure included, the run is the one in which they
report success on the same workspaces: the same calls in the same order, net executions at the
same indices and reports on the same workspaces included, and the same end. So a reported
failure at an iteration stops nothing: `run` raises no execution error for it and names no
iteration. -/
theorem run_value_is_dropped {W : Type} (env : Env W) (value : NetDef → W → Bool) (F : Flags)
    (fuel : Nat) :
    (run (withRunValue env value) F fuel).2 = (run env F fuel).2 ∧
    (run (withRunValue env value) F fuel).1.map Event.dropValue
      = (run env F fuel).1.map Event.dropValue := by
  unfold run finish
  rw [dropValue_prepare]
  cases (prepare env F).2 with
  | error o => exact ⟨rfl, rfl⟩
  | ok g =>
    obtain ⟨h1, h2⟩ := dropValue_dream env value F g.1 g.2 fuel
    exact ⟨h1, by simp only [List.map_append, h2]⟩

/-- C3 (counterexample): the predict net of the toy environment reports failure at iteration 1
of 2, and iteration 2 is executed all the same. -/
theorem reported_failure_counterexample :
    Event.netRun Net.predict 1 false ∈ (run (toyEnv false false) (toyFlags "cat" 2 true) 2).1 ∧
    Event.netRun Net.predict 2 false ∈ (run (toyEnv false false) (toyFlags "cat" 2 true) 2).1 := by
  set_option maxRecDepth 100000 in decide

/-- C4 (as amended): for every predict graph with at least one external input, whose primary
external input is named `x`, and at least one external output, both `AddNaive` and
`AddSuperNaive` return, and the last node of the predict graph they return is a weighted-sum
node with the ordered inputs `[x, "one", x ++ "_grad", "lr"]` and the sole output `x`; the last
node of the init graph they return is the constant fill of the shape-{1} blob `one` with 1.0,
and `one` is an external input of the predict graph, whose primary input is still `x`. -/
theorem update_node_appended (F : Flags) (init_model predict_model : NetDef) (x : String)
    (channel label_index : Int)
    (hin : predict_model.external_input[0]? = some x)
    (hout : predict_model.external_output ≠ []) :
    (∃ i p, AddNaive F init_model predict_model channel = some (i, p) ∧
      p.op.getLast? = some { type := "WeightedSum", input := [x, "one", x ++ "_grad", "lr"],
                             output := [x] } ∧
      i.op.getLast? = some { type := "ConstantFill", input := [], output := ["one"],
                             arg := [("shape", ArgVal.ints [1]), ("value", ArgVal.float 1)] } ∧
      "one" ∈ p.external_input ∧ p.external_input[0]? = some x) ∧
    (∃ i p, AddSuperNaive F init_model predict_model label_index = some (i, p) ∧
      p.op.getLast? = some { type := "WeightedSum", input := [x, "one", x ++ "_grad", "lr"],
                             output := [x] } ∧
      i.op.getLast? = some { type := "ConstantFill", input := [], output := ["one"],
                             arg := [("shape", ArgVal.ints [1]), ("value", ArgVal.float 1)] } ∧
      "one" ∈ p.external_input ∧ p.external_input[0]? = some x) := by
  obtain ⟨ops, ins, outs⟩ := predict_model
  cases ins with
  | nil => simp at hin
  | cons a ins =>
    cases outs with
    | nil => exact absurd rfl hout
    | cons b outs =>
      simp only [List.getElem?_cons_zero, Option.some.injEq] at hin
      subst hin
      constructor
      · cases hA : AddNaive F init_model
            { op := ops, external_input := a :: ins, external_output := b :: outs } channel with
        | none =>
          simp [AddNaive, add_channel_mean_ops, add_gradient_ops, add_iter_lr_ops, add_op,
            add_external_input, add_uniform_fill_float_op, add_constant_fill_float_op,
            add_weighted_sum_op] at hA
        | some g =>
          refine ⟨g.1, g.2, rfl, ?_⟩
          simp only [AddNaive, add_channel_mean_ops, add_gradient_ops, add_iter_lr_ops, add_op,
            add_external_input, add_uniform_fill_float_op, add_constant_fill_float_op,
            add_weighted_sum_op, List.getElem?_cons_zero, List.cons_append,
            Option.some.injEq] at hA
          subst hA
          simp [List.getLast?_append]
          exact getLast?_three (_ :: (List.map gradient_op ops).reverse) _ _ _
      · cases hA : AddSuperNaive F init_model
            { op := ops, external_input := a :: ins, external_output := b :: outs }
            label_index with
        | none =>
          simp [AddSuperNaive, add_xent_ops, add_gradient_ops, add_iter_lr_ops, add_op,
            add_external_input, add_constant_fill_int32_op, add_constant_fill_float_op,
            add_weighted_sum_op] at hA
        | some g =>
          refine ⟨g.1, g.2, rfl, ?_⟩
          simp only [AddSuperNaive, add_xent_ops, add_gradient_ops, add_iter_lr_ops, add_op,
            add_external_input, add_constant_fill_int32_op, add_constant_fill_float_op,
            add_weighted_sum_op, List.getElem?_cons_zero, List.cons_append,
            Option.some.injEq] at hA
          subst hA
          simp [List.getLast?_append]
          exact getLast?_three (_ :: (List.map gradient_op ops).reverse) _ _ _

/-- C4 (witness): the first predict graph of the split toy model. -/
theorem update_node_appended_witness :
    ∃ i p, AddNaive (toyFlags "cat" 20 true) toySplit.1 toySplit.2.1 0 = some (i, p) ∧
      p.op.getLast? = some { type := "WeightedSum",
                             input := ["data", "one", "data" ++ "_grad", "lr"],
                             output := ["data"] } :=
  have h := (update_node_appended (toyFlags "cat" 20 true) toySplit.1 toySplit.2.1 "data" 0 7
    (by decide) (by decide)).1
  match h with
  | ⟨i, p, h1, h2, _⟩ => ⟨i, p, h1, h2⟩

/-- C4 (counterexample): a predict graph with the external input `data` and no external output.
Both augmenters read `external_output(0)` first, which is out of range: neither returns a graph
with the update node. -/
theorem update_node_no_output_counterexample :
    ({ external_input := ["data"] } : NetDef).external_input[0]? = some "data" ∧
    AddNaive (toyFlags "cat" 20 true) toyInit { external_input := ["data"] } 0 = none ∧
    AddSuperNaive (toyFlags "cat" 20 true) toyInit { external_input := ["data"] } 7 = none := by
  decide

/-- C5 (as amended): for every iteration count `train_runs` below `INT_MAX`, once the stages
before the nets have passed and produced the graphs `gi` and `gp`, `run` (followed for at least
`train_runs` iterations) creates both nets from them, executes the init net exactly once and
then the predict net at the indices `1, ..., train_runs`, that is `max(train_runs, 0)` times,
all after the init run (the trace before the nets holds no net execution), and returns. When
`train_runs <= 0` the predict net is never executed, no report is produced and the final
workspace is the one the init net left, so every blob keeps its init value. If each predict
execution increments a counter read from the workspace by one, the counter ends at its init
value plus `max(train_runs, 0)`. -/
theorem init_once_then_predict_runs {W : Type} (env : Env W) (F : Flags) (gi gp : NetDef)
    (fuel : Nat) (h : (prepare env F).2 = Except.ok (gi, gp))
    (hN : F.train_runs < 2147483647) (hfuel : F.train_runs.toNat ≤ fuel) :
    (∃ b l, (run env F fuel).1 = (prepare env F).1 ++
        ([Event.createNet Net.init gi, Event.createNet Net.predict gp,
          Event.netRun Net.init 0 b] ++ l) ∧
        (∀ e, e ∈ (prepare env F).1 → e.netWork = false) ∧
        predictRuns l = indices F.train_runs.toNat ∧ initRuns l = 0 ∧ created l = []) ∧
    created (run env F fuel).1 = [(Net.init, gi), (Net.predict, gp)] ∧
    initRuns (run env F fuel).1 = 1 ∧
    predictRuns (run env F fuel).1 = indices F.train_runs.toNat ∧
    ((predictRuns (run env F fuel).1).length : Int) = max F.train_runs 0 ∧
    (∃ w, (run env F fuel).2 = Outcome.finished w) ∧
    (F.train_runs ≤ 0 → predictRuns (run env F fuel).1 = [] ∧ reports (run env F fuel).1 = [] ∧
        (run env F fuel).2 = Outcome.finished (initWorkspace env gi gp)) ∧
    (∀ iter : W → Int, (∀ w, iter (env.netRun gp w).2 = iter w + 1) →
        ∃ w, (run env F fuel).2 = Outcome.finished w ∧
          iter w = iter (initWorkspace env gi gp) + max F.train_runs 0) := by
  obtain ⟨x, hx⟩ := run_finished env F gi gp fuel h hN hfuel
  obtain ⟨x2, hx2⟩ := run_shape env F gi gp fuel h
  obtain ⟨c1, c2⟩ := run_created env F gi gp fuel h
  obtain ⟨o3, o4⟩ := run_observed env F gi gp fuel h hN hfuel
  have l1 := dreamLoop_no_net env gp x2 F.train_runs fuel 1 (initWorkspace env gi gp)
  obtain ⟨p1, _, _, _⟩ := observe_of_no_netWork _ (prepare_events env F)
  have l2 : predictRuns (dreamLoop env gp x2 F.train_runs fuel 1 (initWorkspace env gi gp)).1
      = indices F.train_runs.toNat := by
    have := o3
    rw [hx2, predictRuns_append, p1, predictRuns_append] at this
    exact this
  refine ⟨⟨_, _, by rw [hx2], prepare_events env F, l2, l1.1, l1.2.1⟩, c1, c2, o3, ?_,
    ⟨_, by rw [hx]⟩, ?_, ?_⟩
  · rw [o3]
    simp only [indices, List.length_map, List.length_range]
    omega
  · intro hz
    have hz : F.train_runs.toNat = 0 := by omega
    rw [o3, o4, hx, hz]
    exact ⟨rfl, rfl, rfl⟩
  · intro iter hstep
    refine ⟨_, by rw [hx], ?_⟩
    rw [iterations_counter env gp x iter hstep]
    omega

/-- C5 (witness): the toy run with 20 iterations. -/
theorem init_once_then_predict_runs_witness :
    (prepare (toyEnv true false) (toyFlags "cat" 20 true)).2 = Except.ok toyGraphs ∧
    initRuns (run (toyEnv true false) (toyFlags "cat" 20 true) 20).1 = 1 ∧
    predictRuns (run (toyEnv true false) (toyFlags "cat" 20 true) 20).1 = indices 20 :=
  have h := init_once_then_predict_runs (toyEnv true false) (toyFlags "cat" 20 true)
    toyGraphs.1 toyGraphs.2 20 (by set_option maxRecDepth 100000 in rfl) (by decide)
    (by decide)
  ⟨by set_option maxRecDepth 100000 in rfl, h.2.2.1, h.2.2.2.1⟩

/-- C5 (counterexample): every predict execution of the toy environment increments the counter
by one. With `train_runs = -1` the counter ends at its init value, not at its init value plus
`train_runs`. With `train_runs = INT_MAX` the run has not returned however long it is followed,
and after 2147483648 iterations the predict net has been executed 2147483648 times, more than
`max(train_runs, 0)`. -/
theorem counter_negative_runs_counterexample :
    (prepare (toyEnv true false) (toyFlags "cat" (-1) true)).2 = Except.ok toyGraphs ∧
    (∀ w, ((toyEnv true false).netRun toyGraphs.2 w).2 = w + 1) ∧
    (run (toyEnv true false) (toyFlags "cat" (-1) true) 0).2
      = Outcome.finished (initWorkspace (toyEnv true false) toyGraphs.1 toyGraphs.2) ∧
    (run (toyEnv true false) (toyFlags "cat" (-1) true) 0).2
      ≠ Outcome.finished (initWorkspace (toyEnv true false) toyGraphs.1 toyGraphs.2
          + (toyFlags "cat" (-1) true).train_runs) ∧
    (prepare (toyEnv true false) (toyFlags "cat" 2147483647 true)).2 = Except.ok toyGraphs ∧
    (∀ fuel, (run (toyEnv true false) (toyFlags "cat" 2147483647 true) fuel).2
      = Outcome.running) ∧
    (predictRuns (run (toyEnv true false) (toyFlags "cat" 2147483647 true) 2147483648).1).length
      = 2147483648 := by
  have hp : (prepare (toyEnv true false) (toyFlags "cat" 2147483647 true)).2
      = Except.ok (toyGraphs.1, toyGraphs.2) := by
    set_option maxRecDepth 100000 in rfl
  refine ⟨by set_option maxRecDepth 100000 in rfl, fun w => rfl,
    by set_option maxRecDepth 100000 in decide,
    by set_option maxRecDepth 100000 in decide, hp, ?_, ?_⟩
  · intro fuel
    obtain ⟨x, hx⟩ := run_running (toyEnv true false) (toyFlags "cat" 2147483647 true)
      toyGraphs.1 toyGraphs.2 fuel hp (le_refl _)
    rw [hx]
  · obtain ⟨x, hx⟩ := run_running (toyEnv true false) (toyFlags "cat" 2147483647 true)
      toyGraphs.1 toyGraphs.2 2147483648 hp (le_refl _)
    obtain ⟨p1, _, _, _⟩ := observe_of_no_netWork _
      (prepare_events (toyEnv true false) (toyFlags "cat" 2147483647 true))
    rw [hx]
    simp only [predictRuns_append, p1, List.nil_append, List.length_append, iterations_length]
    simp [predictRuns]

/-- C6 (as amended): device placement in `run` is all-or-nothing and comes once, before the
nets are created. With the augmented graphs `gi` and `gp`: `set_device_cuda_model` is called on
the init graph and on the predict graph exactly when `force_cpu` is false, and on nothing
otherwise; the calls stand between the augmentation and the two net creations; the nets are
created from the two graphs with every node tagged for the accelerator when `force_cpu` is
false, and from `gi` and `gp` unchanged when it is true. Whether an accelerator is available
is not read: the run is the same with and without one. -/
theorem placement_all_or_nothing {W : Type} (env : Env W) (F : Flags) (gi gp : NetDef)
    (fuel : Nat) (h : (augmentStage env F).2 = Except.ok (gi, gp)) :
    placements (run env F fuel).1 = (if F.force_cpu then [] else [Net.init, Net.predict]) ∧
    (∃ gi1 gp1 l, (run env F fuel).1 = (augmentStage env F).1 ++
        ((if F.force_cpu then [] else [Event.setDevice Net.init, Event.setDevice Net.predict])
          ++ ([Event.createNet Net.init gi1, Event.createNet Net.predict gp1] ++ l))) ∧
    (F.force_cpu = false →
      created (run env F fuel).1
        = [(Net.init, set_device_cuda_model gi), (Net.predict, set_device_cuda_model gp)] ∧
      (∀ o, o ∈ (set_device_cuda_model gi).op → o.device = Device.accelerator) ∧
      (∀ o, o ∈ (set_device_cuda_model gp).op → o.device = Device.accelerator)) ∧
    (F.force_cpu = true →
      created (run env F fuel).1 = [(Net.init, gi), (Net.predict, gp)]) ∧
    (∀ available, run { env with cuda_available := available } F fuel = run env F fuel) := by
  have hp := prepare_of_augment env F (gi, gp) h
  have hcr := created_of_augment env F gi gp fuel h
  have htag : ∀ g : NetDef, ∀ o, o ∈ (set_device_cuda_model g).op →
      o.device = Device.accelerator := by
    intro g o ho
    simp only [set_device_cuda_model, List.mem_map] at ho
    obtain ⟨o1, _, rfl⟩ := ho
    rfl
  refine ⟨placements_of_augment env F (gi, gp) fuel h, ?_, ?_, ?_,
    fun available => available_run env available F fuel⟩
  · obtain ⟨g1, hg1⟩ : ∃ g1 : NetDef × NetDef, g1 = (if F.force_cpu then (gi, gp)
         else (set_device_cuda_model gi, set_device_cuda_model gp)) := ⟨_, rfl⟩
    rw [← hg1] at hp
    obtain ⟨gi1, gp1⟩ := g1
    have hok : (prepare env F).2 = Except.ok (gi1, gp1) := by rw [hp]
    obtain ⟨x, hx⟩ := run_shape env F gi1 gp1 fuel hok
    refine ⟨gi1, gp1,
      [Event.netRun Net.init 0
        (env.netRun gi1 (env.CreateNet gp1 (env.CreateNet gi1 env.newWorkspace))).1]
        ++ (dreamLoop env gp1 x F.train_runs fuel 1 (initWorkspace env gi1 gp1)).1, ?_⟩
    rw [hx, hp]
    simp only [List.append_assoc]
    rfl
  · intro hf
    rw [hcr]
    simp only [hf, Bool.false_eq_true, if_false]
    exact ⟨trivial, htag gi, htag gp⟩
  · intro hf
    rw [hcr]
    simp [hf]

/-- C6 (witness): the toy run with the accelerator requested. -/
theorem placement_all_or_nothing_witness :
    placements (run (toyEnv true true) (toyFlags "cat" 20 false) 20).1
      = [Net.init, Net.predict] ∧
    created (run (toyEnv true true) (toyFlags "cat" 20 false) 20).1
      = [(Net.init, set_device_cuda_model toyGraphs.1),
         (Net.predict, set_device_cuda_model toyGraphs.2)] :=
  have h := placement_all_or_nothing (toyEnv true true) (toyFlags "cat" 20 false)
    toyGraphs.1 toyGraphs.2 20 (by set_option maxRecDepth 100000 in rfl)
  ⟨h.1, (h.2.2.1 rfl).1⟩

/-- C6 (counterexample): in the toy environment no accelerator is available and `force_cpu` is
false: the placement pass is called on both graphs all the same, and the nets are created from
the graphs tagged for the accelerator, which are not the graphs with the default tag. -/
theorem placement_without_accelerator_counterexample :
    (toyEnv true false).cuda_available = false ∧
    (toyFlags "cat" 20 false).force_cpu = false ∧
    placements (run (toyEnv true false) (toyFlags "cat" 20 false) 20).1
      = [Net.init, Net.predict] ∧
    created (run (toyEnv true false) (toyFlags "cat" 20 false) 20).1
      = [(Net.init, set_device_cuda_model toyGraphs.1),
         (Net.predict, set_device_cuda_model toyGraphs.2)] ∧
    set_device_cuda_model toyGraphs.1 ≠ toyGraphs.1 ∧
    set_device_cuda_model toyGraphs.2 ≠ toyGraphs.2 := by
  set_option maxRecDepth 100000 in decide

/-- C7 (as amended): for every environment (its multiplier `m` is at least 1) and every
iteration count `N` with `0 <= N < INT_MAX`, in a run that reaches the loop (followed for at
least `N` iterations) the modulus `10 * m` is not zero, the reporting step runs exactly at the
iterations `i` with `1 <= i <= N` that `10 * m` divides, in order, hence exactly `N / (10 * m)`
times; with the default `N = 200 * m` there are exactly 20 reports and the last iteration `N`
is a reporting one. -/
theorem reports_every_ten_multiplier {W : Type} (env : Env W) (F : Flags) (gi gp : NetDef)
    (fuel : Nat) (h : (prepare env F).2 = Except.ok (gi, gp)) (hN : 0 ≤ F.train_runs)
    (hmax : F.train_runs < 2147483647) (hfuel : F.train_runs.toNat ≤ fuel) :
    10 * env.cuda_multipier ≠ 0 ∧
    reports (run env F fuel).1 = (indices F.train_runs.toNat).filter
      (fun i => decide ((10 * env.cuda_multipier) ∣ i)) ∧
    (∀ i, i ∈ reports (run env F fuel).1 ↔
      (1 ≤ i ∧ i ≤ F.train_runs ∧ (10 * env.cuda_multipier) ∣ i)) ∧
    ((reports (run env F fuel).1).length : Int) = F.train_runs / (10 * env.cuda_multipier) ∧
    (F.train_runs = default_train_runs env →
      (reports (run env F fuel).1).length = 20 ∧ F.train_runs ∈ reports (run env F fuel).1) := by
  have hm := env.cuda_multipier_pos
  have hK : 0 < 10 * env.cuda_multipier := by omega
  obtain ⟨_, o4⟩ := run_observed env F gi gp fuel h hmax hfuel
  have hlist : reports (run env F fuel).1 = (indices F.train_runs.toNat).filter
      (fun i => decide ((10 * env.cuda_multipier) ∣ i)) := by
    rw [o4, filter_tmod_eq_dvd]
  have hmem : ∀ i, i ∈ reports (run env F fuel).1 ↔
      (1 ≤ i ∧ i ≤ F.train_runs ∧ (10 * env.cuda_multipier) ∣ i) := by
    intro i
    rw [hlist, List.mem_filter, indices, mem_indices]
    simp only [decide_eq_true_eq]
    constructor
    · rintro ⟨⟨a, b⟩, c⟩
      exact ⟨a, by omega, c⟩
    · rintro ⟨a, b, c⟩
      exact ⟨⟨a, by omega⟩, c⟩
  have hlen : ((reports (run env F fuel).1).length : Int)
      = F.train_runs / (10 * env.cuda_multipier) := by
    rw [o4, filter_indices_length _ hK, Int.toNat_of_nonneg hN]
  refine ⟨by omega, hlist, hmem, hlen, ?_⟩
  intro hd
  unfold default_train_runs at hd
  have h20 : F.train_runs / (10 * env.cuda_multipier) = 20 := by
    rw [hd, show 200 * env.cuda_multipier = 20 * (10 * env.cuda_multipier) by ring]
    exact Int.mul_ediv_cancel 20 (by omega)
  refine ⟨by omega, (hmem _).mpr ⟨by omega, le_refl _, ?_⟩⟩
  rw [hd]
  exact ⟨20, by ring⟩

/-- C7 (witness): the toy run with the default iteration count `200 * 1`. -/
theorem reports_every_ten_multiplier_witness :
    (reports (run (toyEnv true false) (toyFlags "cat" 200 true) 200).1).length = 20 ∧
    (200 : Int) ∈ reports (run (toyEnv true false) (toyFlags "cat" 200 true) 200).1 :=
  (reports_every_ten_multiplier (toyEnv true false) (toyFlags "cat" 200 true)
    toyGraphs.1 toyGraphs.2 200 (by set_option maxRecDepth 100000 in rfl) (by decide)
    (by decide) (by decide)).2.2.2.2 rfl

/-- C7 (counterexample): the toy run (multiplier 1) with `N = INT_MAX`. The loop has not ended
however long it is followed, and after 2147483656 iterations the reporting step has run at the
index -2147483640, which is not an iteration `i` with `1 <= i <= N`. -/
theorem reports_at_int_max_counterexample :
    (0 : Int) ≤ (toyFlags "cat" 2147483647 true).train_runs ∧
    (prepare (toyEnv true false) (toyFlags "cat" 2147483647 true)).2 = Except.ok toyGraphs ∧
    (∀ fuel, (run (toyEnv true false) (toyFlags "cat" 2147483647 true) fuel).2
      = Outcome.running) ∧
    (-2147483640 : Int)
      ∈ reports (run (toyEnv true false) (toyFlags "cat" 2147483647 true) 2147483656).1 := by
  have hp : (prepare (toyEnv true false) (toyFlags "cat" 2147483647 true)).2
      = Except.ok (toyGraphs.1, toyGraphs.2) := by
    set_option maxRecDepth 100000 in rfl
  refine ⟨by decide, hp, ?_, ?_⟩
  · intro fuel
    obtain ⟨x, hx⟩ := run_running (toyEnv true false) (toyFlags "cat" 2147483647 true)
      toyGraphs.1 toyGraphs.2 fuel hp (le_refl _)
    rw [hx]
  · obtain ⟨x, hx⟩ := run_running (toyEnv true false) (toyFlags "cat" 2147483647 true)
      toyGraphs.1 toyGraphs.2 2147483656 hp (le_refl _)
    have he : intSucc^[2147483654 + 1] 1 = -2147483640 := by
      rw [iterate_intSucc]
      norm_num
    have hm := iterations_report_mem (toyEnv true false) toyGraphs.2 x 2147483656 1
      (initWorkspace (toyEnv true false) toyGraphs.1 toyGraphs.2) (2147483654 + 1)
      (by omega) (by rw [he]; decide)
    rw [he] at hm
    rw [hx]
    simp only [reports_append, List.mem_append]
    right; right
    exact hm

/-- C8 (as amended): in `run` the objective, gradient and update nodes are appended only to the
first pair of the split, the graphs from the input up to the split layer: the augmented predict
graph starts with the nodes of the first predict graph and the objective node, followed by
their gradient nodes in reverse order; the two nets are created from this augmented first pair
(after device placement), and only these two nets are created. The second pair of the split,
the graphs after the split layer, takes no part in the augmentation and is never created nor
run, so it is the gradient computation through the second pair that is skipped. -/
theorem first_pair_is_augmented {W : Type} (env : Env W) (F : Flags)
    (m : Int × NetDef × NetDef) (s : NetDef × NetDef × NetDef × NetDef) (gi gp : NetDef)
    (fuel : Nat)
    (hload : (loadStage env F).2 = Except.ok m)
    (hsplit : SplitModel m.2.1 m.2.2 F.layer F.force_cpu = Except.ok s)
    (hadd : AddNaive F s.1 s.2.1 F.channel = some (gi, gp)) :
    (augmentStage env F).2 = Except.ok (gi, gp) ∧
    (∃ objective rest, gp.op = s.2.1.op ++ [objective]
      ++ (s.2.1.op ++ [objective]).reverse.map gradient_op ++ rest) ∧
    created (run env F fuel).1 =
      (if F.force_cpu then [(Net.init, gi), (Net.predict, gp)]
       else [(Net.init, set_device_cuda_model gi),
             (Net.predict, set_device_cuda_model gp)]) ∧
    (∀ c d : NetDef, (augmentFirst F s.1 s.2.1 c d m.1 : Proc W (NetDef × NetDef))
      = augmentFirst F s.1 s.2.1 s.2.2.1 s.2.2.2 m.1) := by
  have ha := augmentStage_of_split env F m s (gi, gp) hload hsplit hadd
  exact ⟨ha, AddNaive_ops F _ _ _ (gi, gp) hadd, created_of_augment env F gi gp fuel ha,
    fun _ _ => rfl⟩

/-- C8 (witness): the toy model split at `mid`. -/
theorem first_pair_is_augmented_witness :
    (augmentStage (toyEnv true false) (toyFlags "cat" 20 true)).2
      = Except.ok (toyGraphs.1, toyGraphs.2) ∧
    created (run (toyEnv true false) (toyFlags "cat" 20 true) 20).1
      = [(Net.init, toyGraphs.1), (Net.predict, toyGraphs.2)] :=
  have h := first_pair_is_augmented (toyEnv true false) (toyFlags "cat" 20 true)
    (7, toyInit, toyPredict) toySplit toyGraphs.1 toyGraphs.2 20
    (by set_option maxRecDepth 100000 in rfl) (by set_option maxRecDepth 100000 in rfl)
    (by set_option maxRecDepth 100000 in rfl)
  ⟨h.1, by set_option maxRecDepth 100000 in exact h.2.2.1⟩

/-- C8 (counterexample): the toy model `data -> mid -> out` split at `mid`. The nets are created
from the augmentation of the first pair (the graph `data -> mid`), whose node receives a
gradient node; the augmentation of the second pair (the graph `mid -> out`) is a different
graph, and neither the node of the second predict graph nor its gradient node is in the graph
that is created and iterated. -/
theorem second_pair_not_augmented_counterexample :
    SplitModel toyInit toyPredict "mid" true = Except.ok toySplit ∧
    toySplit.2.1.op = [{ type := "FC", input := ["data", "w"], output := ["mid"] }] ∧
    toySplit.2.2.2.op = [{ type := "FC", input := ["mid", "v"], output := ["out"] }] ∧
    created (run (toyEnv true false) (toyFlags "cat" 20 true) 20).1
      = [(Net.init, toyGraphs.1), (Net.predict, toyGraphs.2)] ∧
    AddNaive (toyFlags "cat" 20 true) toySplit.1 toySplit.2.1 0 = some toyGraphs ∧
    AddNaive (toyFlags "cat" 20 true) toySplit.2.2.1 toySplit.2.2.2 0 ≠ some toyGraphs ∧
    gradient_op { type := "FC", input := ["data", "w"], output := ["mid"] } ∈ toyGraphs.2.op ∧
    gradient_op { type := "FC", input := ["mid", "v"], output := ["out"] } ∉ toyGraphs.2.op ∧
    ({ type := "FC", input := ["mid", "v"], output := ["out"] } : OperatorDef)
      ∉ toyGraphs.2.op := by
  refine ⟨rfl, ?_⟩
  set_option maxRecDepth 100000 in decide

/-- C9: for every label and class table, the lookup loop of `run` yields `-1` exactly when no
entry with index below 1000 equals the label; otherwise it yields the greatest index `i` with
`0 <= i < 1000` and `table[i] = label` (the last match wins), and so lies in `[0, 1000)`. -/
theorem label_lookup_last_match (imagenet_classes : Nat → String) (label : String) :
    (labelLookup imagenet_classes label = -1 ↔
        ∀ i, i < 1000 → imagenet_classes i ≠ label) ∧
    (labelLookup imagenet_classes label ≠ -1 →
        0 ≤ labelLookup imagenet_classes label ∧
        labelLookup imagenet_classes label < 1000 ∧
        imagenet_classes (labelLookup imagenet_classes label).toNat = label ∧
        ∀ j, j < 1000 → imagenet_classes j = label →
          (j : Int) ≤ labelLookup imagenet_classes label) := by
  refine ⟨labelScan_eq_neg_one_iff imagenet_classes label 1000, ?_⟩
  intro h
  have hr := labelScan_range imagenet_classes label 1000
  have hf := labelScan_found imagenet_classes label 1000 h
  unfold labelLookup at h ⊢
  rcases hr with hr | hr
  · exact absurd hr h
  · exact ⟨hr.1, by exact_mod_cast hr.2, hf.1, hf.2⟩

/-- C10: for every two non-empty labels that both occur in the class table, and the same other
flags and environment, `run` has the same trace and the same outcome, hence creates its nets
from the same augmented init and predict graphs and performs the same sequence of net creations
and executions. -/
theorem run_label_independent {W : Type} (env : Env W) (F : Flags) (l1 l2 : String)
    (fuel : Nat)
    (h1 : l1 ≠ "") (h2 : l2 ≠ "")
    (hf1 : ∃ i, i < 1000 ∧ env.imagenet_classes i = l1)
    (hf2 : ∃ i, i < 1000 ∧ env.imagenet_classes i = l2) :
    run env { F with label := l1 } fuel = run env { F with label := l2 } fuel := by
  by_cases hm : F.model = ""
  · rw [run_of_checkFlags_error env _ _ _ fuel (checkFlags_empty_model env { F with label := l1 } hm),
      run_of_checkFlags_error env _ _ _ fuel (checkFlags_empty_model env { F with label := l2 } hm)]
  · rw [run_of_checkFlags_ok env _ _ _ fuel (checkFlags_found env { F with label := l1 } hm h1 hf1),
      run_of_checkFlags_ok env _ _ _ fuel (checkFlags_found env { F with label := l2 } hm h2 hf2)]
    simp only [loadModel_label, placeDevice_label, dream_label,
      splitAndAugment_label F l1 _ _ 0 0, splitAndAugment_label F l2 _ _ 0 0]
    rfl

/-- C10 (witness): the labels `cat` and `tench` of the toy table. -/
theorem run_label_independent_witness :
    run (toyEnv true true) { toyFlags "" 20 false with label := "cat" } 20
      = run (toyEnv true true) { toyFlags "" 20 false with label := "tench" } 20 :=
  run_label_independent (toyEnv true true) (toyFlags "" 20 false) "cat" "tench" 20
    (by decide) (by decide) ⟨7, by decide, by decide⟩ ⟨0, by decide, by decide⟩

end Dream
